import Mathlib

/-!
Verification of the nimbus.io storage-cluster core against its
natural-language specification.

Each namespace below is a shallow embedding of one source module:

* `DataSlicer`        — web_server/data_slicer.py
* `DataReaderService` — data_reader/data_reader_main.py
* `GatewayReader`     — web_server/data_reader.py
* `ResilientClientM`  — tools/resilient_client.py
* `ListMatcher`       — web_server/listmatcher.py
* `AntiEntropy`       — anti_entropy_server/anti_entropy_server_main.py
* `Forwarder`         — handoff_server/forwarder_coroutine.py

Python 2 byte strings are modelled as `List Char`; external library
functions (hashlib md5, base64 encode/decode, datetime repr) are taken
as parameters of the embedded functions, since they are not part of the
repository.
-/

/-- Python 2 byte strings (`str`) are lists of characters. -/
abbrev PyStr := List Char

namespace DataSlicer

/-- The mutable state of a `DataSlicer` instance from
web_server/data_slicer.py: the remaining bytes of the underlying
file-like object (whose `read n` returns the next `min n remaining`
bytes), the internal carry buffer `buf`, and `remaining`
(`none` when the slicer was constructed with `total_size=None`). -/
structure SlicerState where
  file_obj : List Nat
  buf : List Nat
  remaining : Option Nat
deriving DecidableEq

/-- The `while len(self.buf) < self.slice_size` loop of
`DataSlicer.next`.  Each pass reads from the file object
(`min(slice_size, remaining)` bytes when `total_size` was given, else
`slice_size` bytes); an empty read either yields the non-empty buffer
or raises `StopIteration` (modelled as `none`).  The loop consumes at
least one file byte per pass, so fuel `file_obj.length + 1` is always
enough; the `0` case is unreachable under that fuel. -/
def readLoop (slice_size : Nat) : Nat → SlicerState → Option (List Nat × SlicerState)
  | 0, _ => none
  | fuel+1, st =>
    if st.buf.length < slice_size then
      let n := match st.remaining with
        | some r => min slice_size r
        | none => slice_size
      let data := st.file_obj.take n
      let remaining' := st.remaining.map (fun r => r - data.length)
      if data.isEmpty then
        if st.buf.isEmpty then none
        else some (st.buf, ⟨st.file_obj, [], remaining'⟩)
      else
        readLoop slice_size fuel ⟨st.file_obj.drop n, st.buf ++ data, remaining'⟩
    else
      some (st.buf.take slice_size, ⟨st.file_obj, st.buf.drop slice_size, st.remaining⟩)

/-- `DataSlicer.next`: when `total_size` was given and `remaining` is
falsy, raise `StopIteration` (`none`); otherwise run the read loop. -/
def next (slice_size : Nat) (st : SlicerState) : Option (List Nat × SlicerState) :=
  match st.remaining with
  | some 0 => none
  | _ => readLoop slice_size (st.file_obj.length + 1) st

/-- Repeatedly invoke `next` until `StopIteration`, collecting the
yielded slices (Python `for slice in slicer`).  Every yielded slice is
non-empty, so fuel `file_obj.length + 1` covers every run. -/
def iterate (slice_size : Nat) : Nat → SlicerState → List (List Nat)
  | 0, _ => []
  | fuel+1, st =>
    match next slice_size st with
    | none => []
    | some (d, st2) => d :: iterate slice_size fuel st2

/-- All slices yielded by `DataSlicer(file_obj, slice_size)` (that is,
with `total_size=None`) over an underlying object holding `content`. -/
def slices (slice_size : Nat) (content : List Nat) : List (List Nat) :=
  iterate slice_size (content.length + 1) ⟨content, [], none⟩

theorem next_nil (s : Nat) (hs : 0 < s) : next s ⟨[], [], none⟩ = none := by
  simp [next, readLoop, hs]

theorem readLoop_none_step (s fuel : Nat) (file buf : List Nat) :
    readLoop s (fuel + 1) ⟨file, buf, none⟩ =
      if buf.length < s then
        if (file.take s).isEmpty then
          (if buf.isEmpty then none else some (buf, ⟨file, [], none⟩))
        else readLoop s fuel ⟨file.drop s, buf ++ file.take s, none⟩
      else some (buf.take s, ⟨file, buf.drop s, none⟩) := by
  simp [readLoop]

theorem next_small (s : Nat) (content : List Nat) (h1 : content ≠ [])
    (h2 : content.length < s) :
    next s ⟨content, [], none⟩ = some (content, ⟨[], [], none⟩) := by
  cases content with
  | nil => exact absurd rfl h1
  | cons c cs =>
    have h2' : cs.length + 1 < s := by simpa using h2
    have htake : (c :: cs).take s = c :: cs :=
      List.take_of_length_le (Nat.le_of_lt h2)
    have hdrop : (c :: cs).drop s = [] :=
      List.drop_eq_nil_of_le (Nat.le_of_lt h2)
    show readLoop s ((c :: cs).length + 1) ⟨c :: cs, [], none⟩ = _
    rw [List.length_cons, readLoop_none_step]
    rw [if_pos (show ([] : List Nat).length < s by simp; omega)]
    rw [htake]
    rw [if_neg (show ¬ ((c :: cs).isEmpty = true) by simp)]
    rw [hdrop, List.nil_append, readLoop_none_step, if_pos h2]
    simp

theorem next_big (s : Nat) (content : List Nat) (hs : 0 < s)
    (h : s ≤ content.length) :
    next s ⟨content, [], none⟩ =
      some (content.take s, ⟨content.drop s, [], none⟩) := by
  cases content with
  | nil => simp at h; omega
  | cons c cs =>
    have hlen : (List.take s (c :: cs)).length = s := by
      rw [List.length_take]
      simp only [List.length_cons] at h ⊢
      omega
    have htake_ne : ¬ (((c :: cs).take s).isEmpty = true) := by
      cases hx : List.take s (c :: cs) with
      | nil => rw [hx] at hlen; simp at hlen; omega
      | cons a l => simp
    show readLoop s ((c :: cs).length + 1) ⟨c :: cs, [], none⟩ = _
    rw [List.length_cons, readLoop_none_step]
    rw [if_pos (show ([] : List Nat).length < s by simpa using hs)]
    rw [if_neg htake_ne, List.nil_append, readLoop_none_step]
    rw [if_neg (show ¬ (((c :: cs).take s).length < s) by rw [hlen]; omega)]
    rw [List.take_take, Nat.min_self]
    simp [List.drop_eq_nil_of_le (Nat.le_of_eq hlen)]

theorem iterate_spec (s : Nat) (hs : 0 < s) :
    ∀ (fuel : Nat) (content : List Nat), content.length < fuel →
      (iterate s fuel ⟨content, [], none⟩).flatten = content ∧
      (∀ sl ∈ (iterate s fuel ⟨content, [], none⟩).dropLast, sl.length = s) ∧
      (∀ sl ∈ (iterate s fuel ⟨content, [], none⟩).getLast?,
        1 ≤ sl.length ∧ sl.length ≤ s) := by
  intro fuel
  induction fuel with
  | zero => intro content h; omega
  | succ m ih =>
    intro content hlt
    by_cases hnil : content = []
    · subst hnil
      simp [iterate, next_nil s hs]
    · by_cases hsmall : content.length < s
      · have hstep := next_small s content hnil hsmall
        have hlen1 : 0 < content.length := List.length_pos.mpr hnil
        cases m with
        | zero => omega
        | succ m2 =>
          simp only [iterate, hstep, next_nil s hs]
          refine ⟨by simp, by simp, ?_⟩
          intro sl hsl
          simp only [List.getLast?_singleton, Option.mem_def, Option.some.injEq] at hsl
          subst hsl
          exact ⟨hlen1, Nat.le_of_lt hsmall⟩
      · have hbig : s ≤ content.length := Nat.le_of_not_lt hsmall
        have hstep := next_big s content hs hbig
        simp only [iterate, hstep]
        have hrec : (content.drop s).length < m := by
          rw [List.length_drop]
          omega
        obtain ⟨ihj, ihd, ihl⟩ := ih (content.drop s) hrec
        have hdlen : (content.take s).length = s := by
          simp [List.length_take, Nat.min_eq_left hbig]
        refine ⟨by simp [ihj], ?_, ?_⟩
        · intro sl hsl
          cases hrest : iterate s m ⟨content.drop s, [], none⟩ with
          | nil => simp [hrest] at hsl
          | cons r rs =>
            rw [hrest] at hsl
            rw [List.dropLast_cons₂] at hsl
            cases hsl with
            | head => exact hdlen
            | tail _ hmem =>
              apply ihd
              rw [hrest]
              exact hmem
        · intro sl hsl
          cases hrest : iterate s m ⟨content.drop s, [], none⟩ with
          | nil =>
            rw [hrest] at hsl
            simp only [List.getLast?_singleton, Option.mem_def, Option.some.injEq] at hsl
            subst hsl
            rw [hdlen]
            exact ⟨hs, Nat.le_refl s⟩
          | cons r rs =>
            rw [hrest] at hsl
            rw [List.getLast?_cons_cons] at hsl
            apply ihl
            rw [hrest]
            exact hsl

/-- C10: iterating a `DataSlicer` built with `total_size=None` over an
underlying byte string yields slices whose concatenation is the whole
content; every slice but the last has length exactly `slice_size`, and
the last has length between 1 and `slice_size`. -/
theorem dataSlicer_concat_and_lengths (content : List Nat) (slice_size : Nat)
    (hs : 0 < slice_size) :
    (slices slice_size content).flatten = content ∧
    (∀ sl ∈ (slices slice_size content).dropLast, sl.length = slice_size) ∧
    (∀ sl ∈ (slices slice_size content).getLast?,
      1 ≤ sl.length ∧ sl.length ≤ slice_size) :=
  iterate_spec slice_size hs (content.length + 1) content (Nat.lt_succ_self _)

/-- Witness for C10 at `content = [1,2,3,4,5]`, `slice_size = 2`. -/
theorem dataSlicer_concat_and_lengths_witness :
    (0 < 2) ∧
    ((slices 2 [1,2,3,4,5]).flatten = [1,2,3,4,5] ∧
     (∀ sl ∈ (slices 2 [1,2,3,4,5]).dropLast, sl.length = 2) ∧
     (∀ sl ∈ (slices 2 [1,2,3,4,5]).getLast?, 1 ≤ sl.length ∧ sl.length ≤ 2)) :=
  ⟨by decide, dataSlicer_concat_and_lengths [1,2,3,4,5] 2 (by decide)⟩

end DataSlicer

namespace DataReaderService

/-- A JSON value as it appears in a reply control dictionary. -/
inductive Val
  | none
  | int (n : Int)
  | str (s : String)
  | bool (b : Bool)
deriving DecidableEq

/-- One row of the `nimbusio_node.segment_sequence` index as the reader
uses it: per-chunk size, zfec padding, adler32 and stored md5 digest. -/
structure SequenceRow where
  size : Nat
  zfec_padding_size : Nat
  adler32 : Int
  hash : String
deriving DecidableEq

/-- `_compute_state_key`: `(client-tag, segment-unified-id, segment-num)`. -/
abbrev StateKey := String × Nat × Nat

/-- `_retrieve_state_tuple`.  `generator` holds the items the sequence
generator has not yielded yet (the integer row count has already been
consumed by `_handle_retrieve_key_start`). -/
structure RetrieveState where
  generator : List (SequenceRow × String)
  sequence_row_count : Nat
  sequence_read_count : Nat
  timeout : Nat
deriving DecidableEq

/-- `state["active-requests"]`, a dictionary keyed by `StateKey`. -/
abbrev ActiveRequests := List (StateKey × RetrieveState)

def lookup (l : ActiveRequests) (k : StateKey) : Option RetrieveState :=
  (l.find? (fun p => p.1 = k)).map (fun p => p.2)

def removeKey (l : ActiveRequests) (k : StateKey) : ActiveRequests :=
  l.filter (fun p => ¬ (p.1 = k))

/-- Fields of a `retrieve-key-start` / `retrieve-key-next` message that
the handlers read. -/
structure RetrieveMessage where
  client_tag : String
  message_id : String
  segment_unified_id : Nat
  segment_conjoined_part : Nat
  segment_num : Nat
deriving DecidableEq

/-- Everything a handler call produces: the reply dictionary, the data
frame passed to `send_reply` (if any), and the new `active-requests`. -/
structure HandlerResult where
  reply : List (String × Val)
  sent_data : Option String
  active_requests : ActiveRequests
deriving DecidableEq

/-- `reply[k] = v` on a dictionary whose key `k` already exists. -/
def dictSet (d : List (String × Val)) (k : String) (v : Val) : List (String × Val) :=
  d.map (fun p => if p.1 = k then (k, v) else p)

/-- `reply.get(k)`. -/
def dictGet (d : List (String × Val)) (k : String) : Option Val :=
  (d.find? (fun p => p.1 = k)).map (fun p => p.2)

/-- The reply dictionary literal built at the top of
`_handle_retrieve_key_start`. -/
def startReplyBase (m : RetrieveMessage) : List (String × Val) :=
  [("message-type", Val.str "retrieve-key-reply"),
   ("client-tag", Val.str m.client_tag),
   ("message-id", Val.str m.message_id),
   ("segment-unified-id", Val.int m.segment_unified_id),
   ("segment-conjoined-part", Val.int m.segment_conjoined_part),
   ("segment-num", Val.int m.segment_num),
   ("segment-size", Val.none),
   ("zfec-padding-size", Val.none),
   ("segment-adler32", Val.none),
   ("segment-md5-digest", Val.none),
   ("sequence-num", Val.none),
   ("completed", Val.none),
   ("result", Val.none),
   ("error-message", Val.none)]

/-- The reply dictionary literal built at the top of
`_handle_retrieve_key_next` (it has no `segment-conjoined-part` key). -/
def nextReplyBase (m : RetrieveMessage) : List (String × Val) :=
  [("message-type", Val.str "retrieve-key-reply"),
   ("client-tag", Val.str m.client_tag),
   ("message-id", Val.str m.message_id),
   ("segment-unified-id", Val.int m.segment_unified_id),
   ("segment-num", Val.int m.segment_num),
   ("segment-size", Val.none),
   ("zfec-padding-size", Val.none),
   ("segment-adler32", Val.none),
   ("segment-md5-digest", Val.none),
   ("sequence-num", Val.none),
   ("completed", Val.none),
   ("result", Val.none),
   ("error-message", Val.none)]

/-- `_handle_retrieve_key_start`.  `md5` and `b64encode` stand for the
external `hashlib.md5(...).digest()` and `base64.b64encode`;
`sequence_rows` is the content the sequence-row generator will yield
after its leading row count; `now` is `time.time()`. -/
def handle_retrieve_key_start (md5 : String → String) (b64encode : String → String)
    (now retrieve_timeout : Nat) (active : ActiveRequests)
    (message : RetrieveMessage) (sequence_rows : List (SequenceRow × String)) :
    HandlerResult :=
  let state_key : StateKey :=
    (message.client_tag, message.segment_unified_id, message.segment_num)
  let reply := startReplyBase message
  if (lookup active state_key).isSome then
    { reply := dictSet (dictSet reply "result" (Val.str "invalid-duplicate"))
        "error-message" (Val.str "invalid duplicate request in retrieve-key-start"),
      sent_data := Option.none,
      active_requests := active }
  else
    let sequence_row_count := sequence_rows.length
    if sequence_row_count = 0 then
      { reply := dictSet (dictSet reply "result" (Val.str "no-sequence-rows"))
          "error-message" (Val.str "no sequence rows found"),
        sent_data := Option.none,
        active_requests := active }
    else
      match sequence_rows with
      | [] =>
        -- unreachable (`sequence_row_count ≠ 0`); corresponds to the
        -- `except Exception` branch around `sequence_generator.next()`
        { reply := dictSet (dictSet reply "result" (Val.str "exception"))
            "error-message" (Val.str "exception"),
          sent_data := Option.none,
          active_requests := active }
      | (sequence_row, data_content) :: rest =>
        if md5 data_content ≠ sequence_row.hash then
          { reply := dictSet (dictSet reply "result" (Val.str "md5-mismatch"))
              "error-message" (Val.str "segment md5 does not match expected value"),
            sent_data := Option.none,
            active_requests := active }
        else
          let state_entry : RetrieveState :=
            { generator := rest,
              sequence_row_count := sequence_row_count,
              sequence_read_count := 1,
              timeout := now + retrieve_timeout }
          let completed : Bool :=
            decide (state_entry.sequence_read_count = state_entry.sequence_row_count)
          let active2 :=
            if completed then active else (state_key, state_entry) :: active
          let reply := dictSet reply "completed" (Val.bool completed)
          let reply := dictSet reply "sequence-num"
            (Val.int state_entry.sequence_read_count)
          let reply := dictSet reply "segment-size" (Val.int sequence_row.size)
          let reply := dictSet reply "zfec-padding-size"
            (Val.int sequence_row.zfec_padding_size)
          let reply := dictSet reply "segment-adler32" (Val.int sequence_row.adler32)
          let reply := dictSet reply "segment-md5-digest"
            (Val.str (b64encode sequence_row.hash))
          let reply := dictSet reply "result" (Val.str "success")
          { reply := reply,
            sent_data := some data_content,
            active_requests := active2 }

/-- `_handle_retrieve_key_next`.  The state entry is popped before the
generator is advanced; on `completed` it is simply not reinserted. -/
def handle_retrieve_key_next (md5 : String → String) (b64encode : String → String)
    (active : ActiveRequests) (message : RetrieveMessage) : HandlerResult :=
  let state_key : StateKey :=
    (message.client_tag, message.segment_unified_id, message.segment_num)
  let reply := nextReplyBase message
  match lookup active state_key with
  | Option.none =>
    { reply := dictSet (dictSet reply "result" (Val.str "unknown-request"))
        "error-message" (Val.str "unknown request"),
      sent_data := Option.none,
      active_requests := active }
  | some state_entry =>
    let active2 := removeKey active state_key
    match state_entry.generator with
    | [] =>
      -- `generator.next()` raises `StopIteration`, caught by the broad
      -- `except Exception` branch; the popped entry stays removed
      { reply := dictSet (dictSet reply "result" (Val.str "exception"))
          "error-message" (Val.str "StopIteration"),
        sent_data := Option.none,
        active_requests := active2 }
    | (sequence_row, data_content) :: rest =>
      if md5 data_content ≠ sequence_row.hash then
        { reply := dictSet (dictSet reply "result" (Val.str "md5-mismatch"))
            "error-message" (Val.str "segment md5 does not match expected value"),
          sent_data := Option.none,
          active_requests := active2 }
      else
        let sequence_read_count := state_entry.sequence_read_count + 1
        let completed : Bool :=
          decide (sequence_read_count = state_entry.sequence_row_count)
        let active3 :=
          if completed then active2
          else (state_key,
            { state_entry with
              generator := rest,
              sequence_read_count := sequence_read_count }) :: active2
        let reply := dictSet reply "completed" (Val.bool completed)
        let reply := dictSet reply "sequence-num" (Val.int sequence_read_count)
        let reply := dictSet reply "segment-size" (Val.int sequence_row.size)
        let reply := dictSet reply "zfec-padding-size"
          (Val.int sequence_row.zfec_padding_size)
        let reply := dictSet reply "segment-adler32" (Val.int sequence_row.adler32)
        let reply := dictSet reply "segment-md5-digest"
          (Val.str (b64encode sequence_row.hash))
        let reply := dictSet reply "result" (Val.str "success")
        { reply := reply,
          sent_data := some data_content,
          active_requests := active3 }

theorem lookup_removeKey (l : ActiveRequests) (k : StateKey) :
    lookup (removeKey l k) k = Option.none := by
  induction l with
  | nil => rfl
  | cons p rest ih =>
    by_cases h : p.1 = k
    · simpa [removeKey, lookup, h] using ih
    · simpa [removeKey, lookup, h] using ih

theorem lookup_cons_self (l : ActiveRequests) (k : StateKey) (e : RetrieveState) :
    lookup ((k, e) :: l) k = some e := by
  simp [lookup, List.find?]


/-- C5: a `retrieve-key-start` whose state key already has an iterator
replies `invalid-duplicate` and leaves `active-requests` unchanged; a
`retrieve-key-next` whose state key is absent replies `unknown-request`;
neither sends sequence data. -/
theorem retrieve_duplicate_and_unknown_requests
    (md5 b64e : String → String) (now rt : Nat)
    (active active2 : ActiveRequests) (m m2 : RetrieveMessage)
    (rows : List (SequenceRow × String)) :
    ((lookup active (m.client_tag, m.segment_unified_id, m.segment_num)).isSome →
      dictGet (handle_retrieve_key_start md5 b64e now rt active m rows).reply
          "result" = some (Val.str "invalid-duplicate") ∧
      (handle_retrieve_key_start md5 b64e now rt active m rows).active_requests =
          active ∧
      (handle_retrieve_key_start md5 b64e now rt active m rows).sent_data =
          Option.none) ∧
    (lookup active2 (m2.client_tag, m2.segment_unified_id, m2.segment_num) =
        Option.none →
      dictGet (handle_retrieve_key_next md5 b64e active2 m2).reply "result" =
          some (Val.str "unknown-request") ∧
      (handle_retrieve_key_next md5 b64e active2 m2).active_requests = active2 ∧
      (handle_retrieve_key_next md5 b64e active2 m2).sent_data = Option.none) := by
  constructor
  · intro hdup
    simp [handle_retrieve_key_start, hdup, dictGet, dictSet, startReplyBase,
      List.find?]
  · intro habs
    simp [handle_retrieve_key_next, habs, dictGet, dictSet, nextReplyBase,
      List.find?]

/-- Witness for C5: a concrete duplicate start and unknown next. -/
theorem retrieve_duplicate_and_unknown_requests_witness :
    (dictGet (handle_retrieve_key_start id id 0 1800
        [(("t", 7, 5), ⟨[], 3, 1, 9⟩)] ⟨"t", "mid", 7, 0, 5⟩
        [(⟨10, 4, 9, "h"⟩, "h")]).reply "result" =
      some (Val.str "invalid-duplicate") ∧
     (handle_retrieve_key_start id id 0 1800
        [(("t", 7, 5), ⟨[], 3, 1, 9⟩)] ⟨"t", "mid", 7, 0, 5⟩
        [(⟨10, 4, 9, "h"⟩, "h")]).active_requests =
      [(("t", 7, 5), ⟨[], 3, 1, 9⟩)] ∧
     (handle_retrieve_key_start id id 0 1800
        [(("t", 7, 5), ⟨[], 3, 1, 9⟩)] ⟨"t", "mid", 7, 0, 5⟩
        [(⟨10, 4, 9, "h"⟩, "h")]).sent_data = Option.none) ∧
    (dictGet (handle_retrieve_key_next id id [] ⟨"u", "mid2", 8, 0, 6⟩).reply
        "result" = some (Val.str "unknown-request") ∧
     (handle_retrieve_key_next id id [] ⟨"u", "mid2", 8, 0, 6⟩).active_requests =
      [] ∧
     (handle_retrieve_key_next id id [] ⟨"u", "mid2", 8, 0, 6⟩).sent_data =
      Option.none) :=
  ⟨(retrieve_duplicate_and_unknown_requests id id 0 1800
      [(("t", 7, 5), ⟨[], 3, 1, 9⟩)] [] ⟨"t", "mid", 7, 0, 5⟩ ⟨"u", "mid2", 8, 0, 6⟩
      [(⟨10, 4, 9, "h"⟩, "h")]).1 (by decide),
   (retrieve_duplicate_and_unknown_requests id id 0 1800
      [(("t", 7, 5), ⟨[], 3, 1, 9⟩)] [] ⟨"t", "mid", 7, 0, 5⟩ ⟨"u", "mid2", 8, 0, 6⟩
      [(⟨10, 4, 9, "h"⟩, "h")]).2 (by decide)⟩

/-- C4: on the success path, `completed` is true exactly on the reply
whose delivered sequence number equals the total sequence row count; a
single-sequence start never stores a state entry, and once the last
sequence is delivered the state key is absent from `active-requests`. -/
theorem retrieve_completed_exactly_on_last_sequence
    (md5 b64e : String → String) (now rt : Nat) (active : ActiveRequests)
    (m : RetrieveMessage) (row : SequenceRow) (data : String)
    (rest : List (SequenceRow × String)) (e : RetrieveState) :
    (lookup active (m.client_tag, m.segment_unified_id, m.segment_num) =
        Option.none →
      md5 data = row.hash →
      dictGet (handle_retrieve_key_start md5 b64e now rt active m
          ((row, data) :: rest)).reply "completed" =
        some (Val.bool (decide (1 = rest.length + 1))) ∧
      dictGet (handle_retrieve_key_start md5 b64e now rt active m
          ((row, data) :: rest)).reply "sequence-num" = some (Val.int 1) ∧
      (rest = [] →
        (handle_retrieve_key_start md5 b64e now rt active m
          ((row, data) :: rest)).active_requests = active) ∧
      (rest ≠ [] →
        lookup (handle_retrieve_key_start md5 b64e now rt active m
            ((row, data) :: rest)).active_requests
          (m.client_tag, m.segment_unified_id, m.segment_num) =
          some { generator := rest, sequence_row_count := rest.length + 1,
                 sequence_read_count := 1, timeout := now + rt })) ∧
    (lookup active (m.client_tag, m.segment_unified_id, m.segment_num) =
        some e →
      e.generator = (row, data) :: rest →
      md5 data = row.hash →
      dictGet (handle_retrieve_key_next md5 b64e active m).reply "completed" =
        some (Val.bool
          (decide (e.sequence_read_count + 1 = e.sequence_row_count))) ∧
      dictGet (handle_retrieve_key_next md5 b64e active m).reply
          "sequence-num" = some (Val.int (e.sequence_read_count + 1)) ∧
      (e.sequence_read_count + 1 = e.sequence_row_count →
        lookup (handle_retrieve_key_next md5 b64e active m).active_requests
          (m.client_tag, m.segment_unified_id, m.segment_num) = Option.none) ∧
      (e.sequence_read_count + 1 ≠ e.sequence_row_count →
        lookup (handle_retrieve_key_next md5 b64e active m).active_requests
          (m.client_tag, m.segment_unified_id, m.segment_num) =
          some ({ e with
                  generator := rest,
                  sequence_read_count := e.sequence_read_count + 1 }))) := by
  constructor
  · intro hlk hmd5
    refine ⟨?_, ?_, ?_, ?_⟩
    · simp [handle_retrieve_key_start, hlk, hmd5, dictGet, dictSet,
        startReplyBase, List.find?]
    · simp [handle_retrieve_key_start, hlk, hmd5, dictGet, dictSet,
        startReplyBase, List.find?]
    · intro hrest
      subst hrest
      simp [handle_retrieve_key_start, hlk, hmd5]
    · intro hrest
      have hne : ¬ (1 = rest.length + 1) := by
        cases rest with
        | nil => exact absurd rfl hrest
        | cons a l => simp
      simp [handle_retrieve_key_start, hlk, hmd5, hne, lookup_cons_self]
  · intro hlk hgen hmd5
    refine ⟨?_, ?_, ?_, ?_⟩
    · simp [handle_retrieve_key_next, hlk, hgen, hmd5, dictGet, dictSet,
        nextReplyBase, List.find?]
    · simp [handle_retrieve_key_next, hlk, hgen, hmd5, dictGet, dictSet,
        nextReplyBase, List.find?]
    · intro hdone
      simp [handle_retrieve_key_next, hlk, hgen, hmd5, hdone, lookup_removeKey]
    · intro hmore
      simp [handle_retrieve_key_next, hlk, hgen, hmd5, hmore, lookup_cons_self]

/-- Witness for C4: a two-sequence segment; the start reply is not
completed and stores the iterator, the next reply is completed and the
iterator is gone. -/
theorem retrieve_completed_exactly_on_last_sequence_witness :
    (dictGet (handle_retrieve_key_start id id 0 1800 [] ⟨"t", "mid", 7, 0, 5⟩
        [(⟨10, 4, 9, "d1"⟩, "d1"), (⟨11, 4, 8, "d2"⟩, "d2")]).reply
      "completed" = some (Val.bool false) ∧
     lookup (handle_retrieve_key_next id id
        [(("t", 7, 5), ⟨[(⟨11, 4, 8, "d2"⟩, "d2")], 2, 1, 1800⟩)]
        ⟨"t", "mid", 7, 0, 5⟩).active_requests ("t", 7, 5) = Option.none) := by
  constructor
  · have h := (retrieve_completed_exactly_on_last_sequence id id 0 1800 []
      ⟨"t", "mid", 7, 0, 5⟩ ⟨10, 4, 9, "d1"⟩ "d1" [(⟨11, 4, 8, "d2"⟩, "d2")]
      ⟨[], 0, 0, 0⟩).1 (by decide) (by decide)
    rw [h.1]
    decide
  · exact ((retrieve_completed_exactly_on_last_sequence id id 0 1800
      [(("t", 7, 5), ⟨[(⟨11, 4, 8, "d2"⟩, "d2")], 2, 1, 1800⟩)]
      ⟨"t", "mid", 7, 0, 5⟩ ⟨11, 4, 8, "d2"⟩ "d2" []
      ⟨[(⟨11, 4, 8, "d2"⟩, "d2")], 2, 1, 1800⟩).2 (by decide) (by decide)
      (by decide)).2.2.1 (by decide)

/-- C3 (amended): the first `retrieve-key-reply` of a successful
`retrieve-key-start` carries `sequence-num = 1`, the first sequence's
bytes and its per-chunk metadata; the total sequence row count is
recorded only in the server-side iterator state, not in the reply. -/
theorem retrieve_start_first_reply_contents
    (md5 b64e : String → String) (now rt : Nat) (active : ActiveRequests)
    (m : RetrieveMessage) (row : SequenceRow) (data : String)
    (rest : List (SequenceRow × String))
    (hlk : lookup active (m.client_tag, m.segment_unified_id, m.segment_num) =
      Option.none)
    (hmd5 : md5 data = row.hash) :
    dictGet (handle_retrieve_key_start md5 b64e now rt active m
        ((row, data) :: rest)).reply "sequence-num" = some (Val.int 1) ∧
    dictGet (handle_retrieve_key_start md5 b64e now rt active m
        ((row, data) :: rest)).reply "segment-size" = some (Val.int row.size) ∧
    dictGet (handle_retrieve_key_start md5 b64e now rt active m
        ((row, data) :: rest)).reply "zfec-padding-size" =
      some (Val.int row.zfec_padding_size) ∧
    dictGet (handle_retrieve_key_start md5 b64e now rt active m
        ((row, data) :: rest)).reply "segment-adler32" =
      some (Val.int row.adler32) ∧
    dictGet (handle_retrieve_key_start md5 b64e now rt active m
        ((row, data) :: rest)).reply "segment-md5-digest" =
      some (Val.str (b64e row.hash)) ∧
    dictGet (handle_retrieve_key_start md5 b64e now rt active m
        ((row, data) :: rest)).reply "result" = some (Val.str "success") ∧
    (handle_retrieve_key_start md5 b64e now rt active m
        ((row, data) :: rest)).sent_data = some data ∧
    dictGet (handle_retrieve_key_start md5 b64e now rt active m
        ((row, data) :: rest)).reply "sequence-row-count" = Option.none ∧
    (rest ≠ [] →
      lookup (handle_retrieve_key_start md5 b64e now rt active m
          ((row, data) :: rest)).active_requests
        (m.client_tag, m.segment_unified_id, m.segment_num) =
        some { generator := rest, sequence_row_count := rest.length + 1,
               sequence_read_count := 1, timeout := now + rt }) := by
  refine ⟨?_, ?_, ?_, ?_, ?_, ?_, ?_, ?_, ?_⟩
  all_goals
    first
    | (intro hrest
       have hne : ¬ (1 = rest.length + 1) := by
         cases rest with
         | nil => exact absurd rfl hrest
         | cons a l => simp
       simp [handle_retrieve_key_start, hlk, hmd5, hne, lookup_cons_self])
    | simp [handle_retrieve_key_start, hlk, hmd5, dictGet, dictSet,
        startReplyBase, List.find?]

/-- Witness for C3 (amended) at a concrete two-sequence segment. -/
theorem retrieve_start_first_reply_contents_witness :
    dictGet (handle_retrieve_key_start id id 0 1800 [] ⟨"t", "mid", 7, 0, 5⟩
        [(⟨10, 4, 9, "d1"⟩, "d1"), (⟨11, 4, 8, "d2"⟩, "d2")]).reply
      "sequence-num" = some (Val.int 1) ∧
    dictGet (handle_retrieve_key_start id id 0 1800 [] ⟨"t", "mid", 7, 0, 5⟩
        [(⟨10, 4, 9, "d1"⟩, "d1"), (⟨11, 4, 8, "d2"⟩, "d2")]).reply
      "segment-size" = some (Val.int 10) :=
  ⟨(retrieve_start_first_reply_contents id id 0 1800 [] ⟨"t", "mid", 7, 0, 5⟩
      ⟨10, 4, 9, "d1"⟩ "d1" [(⟨11, 4, 8, "d2"⟩, "d2")] (by decide) (by decide)).1,
   (retrieve_start_first_reply_contents id id 0 1800 [] ⟨"t", "mid", 7, 0, 5⟩
      ⟨10, 4, 9, "d1"⟩ "d1" [(⟨11, 4, 8, "d2"⟩, "d2")] (by decide)
      (by decide)).2.1⟩

/-- Counterexample to C3 as stated: for a concrete segment with three
sequence rows, the first `retrieve-key-reply` carries the total row
count (3) in no field at all — no value of the reply dictionary equals
3 and there is no `sequence-row-count` key. -/
theorem retrieve_start_reply_lacks_row_count :
    ([(⟨10, 4, 9, "d1"⟩, "d1"), (⟨11, 4, 8, "d2"⟩, "d2"),
      (⟨12, 4, 2, "d3"⟩, "d3")] : List (SequenceRow × String)).length = 3 ∧
    (handle_retrieve_key_start id id 0 1800 [] ⟨"t", "mid", 7, 0, 5⟩
        [(⟨10, 4, 9, "d1"⟩, "d1"), (⟨11, 4, 8, "d2"⟩, "d2"),
         (⟨12, 4, 2, "d3"⟩, "d3")]).reply.all
      (fun p => p.2 ≠ Val.int 3) = true ∧
    dictGet (handle_retrieve_key_start id id 0 1800 [] ⟨"t", "mid", 7, 0, 5⟩
        [(⟨10, 4, 9, "d1"⟩, "d1"), (⟨11, 4, 8, "d2"⟩, "d2"),
         (⟨12, 4, 2, "d3"⟩, "d3")]).reply "sequence-row-count" =
      Option.none := by
  refine ⟨rfl, ?_, ?_⟩ <;> decide

end DataReaderService

namespace GatewayReader

/-- The fields of a `retrieve-key-reply` that the gateway-side
`DataReader` (web_server/data_reader.py) inspects. -/
structure RetrieveReply where
  result : String
  segment_size : Nat
  segment_md5_digest : String
  zfec_padding_size : Nat
  completed : Bool
deriving DecidableEq

/-- What `delivery_channel.get()` produces for the gateway: the reply
control dictionary and the data frame.  `Option.none` models the
`ResilientClientError` raised by `queue_message_for_send`. -/
abbrev DeliveryChannel := Option (RetrieveReply × List Nat)

/-- `DataReader.retrieve_key_start`: returns
`(data, zfec-padding-size, completed)` only when the reply is a
success, the data length equals `segment-size` and the md5 digest of
the data equals the base64-decoded `segment-md5-digest`; every failed
check returns `None`.  `md5` models `hashlib.md5(...).digest()` and
`b64decode` models `base64.b64decode`. -/
def retrieve_key_start (md5 : List Nat → String) (b64decode : String → String)
    (channel : DeliveryChannel) : Option (List Nat × Nat × Bool) :=
  match channel with
  | Option.none => Option.none
  | some (reply, data) =>
    if reply.result ≠ "success" then Option.none
    else if data.length ≠ reply.segment_size then Option.none
    else if md5 data ≠ b64decode reply.segment_md5_digest then Option.none
    else some (data, reply.zfec_padding_size, reply.completed)

/-- `DataReader.retrieve_key_next`: the source duplicates the body of
`retrieve_key_start` verbatim. -/
def retrieve_key_next (md5 : List Nat → String) (b64decode : String → String)
    (channel : DeliveryChannel) : Option (List Nat × Nat × Bool) :=
  match channel with
  | Option.none => Option.none
  | some (reply, data) =>
    if reply.result ≠ "success" then Option.none
    else if data.length ≠ reply.segment_size then Option.none
    else if md5 data ≠ b64decode reply.segment_md5_digest then Option.none
    else some (data, reply.zfec_padding_size, reply.completed)

/-- C9: both gateway retrieve calls return a non-`None` result exactly
when the reply's result is "success", the delivered data's length
equals `segment-size`, and the md5 of the data equals the decoded
`segment-md5-digest`; in every other case (including a client error,
modelled by the `none` channel) they return `None`, and a successful
return carries the data, padding size and completed flag. -/
theorem gateway_retrieve_success_conditions
    (md5 : List Nat → String) (b64decode : String → String)
    (reply : RetrieveReply) (data : List Nat) :
    retrieve_key_start md5 b64decode Option.none = Option.none ∧
    retrieve_key_next md5 b64decode Option.none = Option.none ∧
    ((retrieve_key_start md5 b64decode (some (reply, data))).isSome ↔
      (reply.result = "success" ∧ data.length = reply.segment_size ∧
       md5 data = b64decode reply.segment_md5_digest)) ∧
    ((retrieve_key_next md5 b64decode (some (reply, data))).isSome ↔
      (reply.result = "success" ∧ data.length = reply.segment_size ∧
       md5 data = b64decode reply.segment_md5_digest)) ∧
    (reply.result = "success" → data.length = reply.segment_size →
      md5 data = b64decode reply.segment_md5_digest →
      retrieve_key_start md5 b64decode (some (reply, data)) =
        some (data, reply.zfec_padding_size, reply.completed) ∧
      retrieve_key_next md5 b64decode (some (reply, data)) =
        some (data, reply.zfec_padding_size, reply.completed)) := by
  refine ⟨rfl, rfl, ?_, ?_, ?_⟩
  · constructor
    · intro hsome
      by_contra hc
      push_neg at hc
      simp only [retrieve_key_start] at hsome
      by_cases h1 : reply.result = "success"
      · by_cases h2 : data.length = reply.segment_size
        · by_cases h3 : md5 data = b64decode reply.segment_md5_digest
          · exact absurd h3 (hc h1 h2)
          · simp [h1, h2, h3] at hsome
        · simp [h1, h2] at hsome
      · simp [h1] at hsome
    · intro ⟨h1, h2, h3⟩
      simp [retrieve_key_start, h1, h2, h3]
  · constructor
    · intro hsome
      by_contra hc
      push_neg at hc
      simp only [retrieve_key_next] at hsome
      by_cases h1 : reply.result = "success"
      · by_cases h2 : data.length = reply.segment_size
        · by_cases h3 : md5 data = b64decode reply.segment_md5_digest
          · exact absurd h3 (hc h1 h2)
          · simp [h1, h2, h3] at hsome
        · simp [h1, h2] at hsome
      · simp [h1] at hsome
    · intro ⟨h1, h2, h3⟩
      simp [retrieve_key_next, h1, h2, h3]
  · intro h1 h2 h3
    exact ⟨by simp [retrieve_key_start, h1, h2, h3],
           by simp [retrieve_key_next, h1, h2, h3]⟩

end GatewayReader

namespace ResilientClientM

/-- `_status_handshaking` / `_status_connected` / `_status_disconnected`. -/
inductive Status
  | handshaking
  | connected
  | disconnected
deriving DecidableEq

/-- A message held by the client: the `resilient-server-handshake` the
client itself builds in `_handle_status_disconnected`, or a business
message passed to `queue_message_for_send` (identified by its payload). -/
inductive PendMsg
  | handshake
  | business (m : Nat)
deriving DecidableEq

/-- The state of one `ResilientClient`: `_status`, `_send_queue`,
`_pending_message`, plus ghost logs — the business messages ever passed
to `queue_message_for_send` (in call order), every `_send_message` call,
and the business messages whose ack has arrived (in order). -/
structure ClientState where
  status : Status
  send_queue : List PendMsg
  pending : Option PendMsg
  enqueued : List Nat
  sent : List PendMsg
  acked : List Nat
deriving DecidableEq

/-- The state after `__init__`. -/
def initial : ClientState :=
  ⟨Status.disconnected, [], Option.none, [], [], []⟩

/-- `queue_message_for_send`: send immediately iff
`self._status is _status_connected and self._pending_message is None`,
else append to `_send_queue`. -/
def queue_message_for_send (s : ClientState) (m : Nat) : ClientState :=
  if s.status = Status.connected ∧ s.pending = Option.none then
    { s with pending := some (PendMsg.business m),
             enqueued := s.enqueued ++ [m],
             sent := s.sent ++ [PendMsg.business m] }
  else
    { s with send_queue := s.send_queue ++ [PendMsg.business m],
             enqueued := s.enqueued ++ [m] }

/-- `_pollster_callback` on receipt of the ack matching the pending
message: clear `_pending_message` (promoting to connected when the ack
answered the handshake), then pop the next queued message, if any, and
send it.  When nothing is pending the message is logged and dropped. -/
def pollster_callback_ack (s : ClientState) : ClientState :=
  match s.pending with
  | Option.none => s
  | some p =>
    let s1 :=
      match p with
      | PendMsg.handshake =>
        { s with status := Status.connected, pending := Option.none }
      | PendMsg.business m =>
        { s with acked := s.acked ++ [m], pending := Option.none }
    match s1.send_queue with
    | [] => s1
    | q :: rest =>
      { s1 with pending := some q, send_queue := rest,
                sent := s1.sent ++ [q] }

/-- `_handle_status_disconnected` past the retry interval: open the
socket and send the handshake, which becomes the pending message. -/
def handle_status_disconnected (s : ClientState) : ClientState :=
  if s.status = Status.disconnected then
    { s with status := Status.handshaking,
             pending := some PendMsg.handshake,
             sent := s.sent ++ [PendMsg.handshake] }
  else s

/-- `_handle_status_connected` when the pending message's ack timed
out: disconnect and put the message back at the head of the queue. -/
def handle_status_connected_timeout (s : ClientState) : ClientState :=
  if s.status = Status.connected then
    match s.pending with
    | some p =>
      { s with status := Status.disconnected, pending := Option.none,
               send_queue := p :: s.send_queue }
    | Option.none => s
  else s

/-- `_handle_status_connected` when idle too long with nothing pending:
disconnect voluntarily. -/
def handle_status_connected_idle (s : ClientState) : ClientState :=
  if s.status = Status.connected ∧ s.pending = Option.none then
    { s with status := Status.disconnected }
  else s

/-- `_handle_status_handshaking` when the handshake ack timed out:
disconnect and drop the pending handshake. -/
def handle_status_handshaking_timeout (s : ClientState) : ClientState :=
  if s.status = Status.handshaking then
    { s with status := Status.disconnected, pending := Option.none }
  else s

/-- The externally visible events of a client's life.  Timer events are
over-approximated: the model allows them whenever the dispatched
handler could run, regardless of wall-clock elapse. -/
inductive Event
  | enqueue (m : Nat)
  | ack
  | beginHandshake
  | ackTimeout
  | idleDisconnect
  | handshakeTimeout
deriving DecidableEq

def step (s : ClientState) (e : Event) : ClientState :=
  match e with
  | Event.enqueue m => queue_message_for_send s m
  | Event.ack => pollster_callback_ack s
  | Event.beginHandshake => handle_status_disconnected s
  | Event.ackTimeout => handle_status_connected_timeout s
  | Event.idleDisconnect => handle_status_connected_idle s
  | Event.handshakeTimeout => handle_status_handshaking_timeout s

def run (es : List Event) : ClientState :=
  es.foldl step initial

/-- The business payload of an optionally pending message. -/
def businessOf : Option PendMsg → List Nat
  | some (PendMsg.business m) => [m]
  | _ => []

/-- The business payloads of a message list, in order. -/
def businessList : List PendMsg → List Nat
  | [] => []
  | PendMsg.handshake :: rest => businessList rest
  | PendMsg.business m :: rest => m :: businessList rest

theorem businessList_append (a b : List PendMsg) :
    businessList (a ++ b) = businessList a ++ businessList b := by
  induction a with
  | nil => rfl
  | cons p rest ih =>
    cases p with
    | handshake => simpa [businessList] using ih
    | business m => simpa [businessList] using ih

theorem businessList_cons (q : PendMsg) (rest : List PendMsg) :
    businessList (q :: rest) = businessOf (some q) ++ businessList rest := by
  cases q <;> rfl

/-- The inductive invariant of the client state machine. -/
def Inv (s : ClientState) : Prop :=
  (s.acked ++ businessOf s.pending ++ businessList s.send_queue = s.enqueued) ∧
  (s.status = Status.disconnected → s.pending = Option.none) ∧
  (s.status = Status.connected → s.pending ≠ some PendMsg.handshake) ∧
  (s.status = Status.handshaking → s.pending = some PendMsg.handshake) ∧
  (PendMsg.handshake ∉ s.send_queue) ∧
  (s.status = Status.connected → s.pending = Option.none → s.send_queue = [])

theorem initial_inv : Inv initial := by
  refine ⟨rfl, fun _ => rfl, ?_, ?_, ?_, ?_⟩ <;> simp [initial]

theorem step_preserves_inv (s : ClientState) (e : Event) (h : Inv s) :
    Inv (step s e) := by
  obtain ⟨hfifo, hdisc, hconn, hhsk, hnoq, hempty⟩ := h
  cases e with
  | enqueue m =>
    simp only [step, queue_message_for_send]
    by_cases hc : s.status = Status.connected ∧ s.pending = Option.none
    · rw [if_pos hc]
      have hq : s.send_queue = [] := hempty hc.1 hc.2
      refine ⟨?_, ?_, ?_, ?_, ?_, ?_⟩
      · simp only [businessOf, hq, businessList]
        rw [hq, hc.2] at hfifo
        simp only [businessOf, businessList] at hfifo
        simp [← hfifo]
      · intro hst; simp [hc.1] at hst
      · intro _; simp
      · intro hst; rw [hc.1] at hst; exact absurd hst (by simp)
      · simpa [hq] using hnoq
      · intro _ hp; simp at hp
    · rw [if_neg hc]
      refine ⟨?_, hdisc, hconn, hhsk, ?_, ?_⟩
      · simp only [businessList_append, businessList]
        rw [← hfifo]
        simp
      · simp only [List.mem_append, List.mem_singleton]
        rintro (hin | hin)
        · exact hnoq hin
        · exact absurd hin (by simp)
      · intro h1 h2
        exact absurd ⟨h1, h2⟩ hc
  | ack =>
    cases hp : s.pending with
    | none =>
      have hst : step s Event.ack = s := by
        simp [step, pollster_callback_ack, hp]
      rw [hst]
      exact ⟨hfifo, hdisc, hconn, hhsk, hnoq, hempty⟩
    | some p =>
      rw [hp] at hfifo
      cases p with
      | handshake =>
        cases hq : s.send_queue with
        | nil =>
          have hst : step s Event.ack =
              { s with status := Status.connected, pending := Option.none } := by
            simp [step, pollster_callback_ack, hp, hq]
          rw [hst]
          refine ⟨?_, ?_, ?_, ?_, ?_, ?_⟩
          · simpa [hq, businessOf, businessList] using hfifo
          · intro hco; simp at hco
          · intro _; simp
          · intro hco; simp at hco
          · simpa using hnoq
          · intro _ _
            exact hq
        | cons q rest =>
          have hst : step s Event.ack =
              { s with status := Status.connected, pending := some q,
                       send_queue := rest, sent := s.sent ++ [q] } := by
            simp [step, pollster_callback_ack, hp, hq]
          rw [hst]
          refine ⟨?_, ?_, ?_, ?_, ?_, ?_⟩
          · rw [hq, businessList_cons] at hfifo
            simpa [businessOf, businessList] using hfifo
          · intro hco; simp at hco
          · intro _ hcontra
            simp only [Option.some.injEq] at hcontra
            apply hnoq
            rw [hq, ← hcontra]
            exact List.mem_cons_self q rest
          · intro hco; simp at hco
          · intro hin
            apply hnoq
            rw [hq]
            exact List.mem_cons_of_mem q hin
          · intro _ hpend; simp at hpend
      | business m =>
        cases hq : s.send_queue with
        | nil =>
          have hst : step s Event.ack =
              { s with acked := s.acked ++ [m], pending := Option.none } := by
            simp [step, pollster_callback_ack, hp, hq]
          rw [hst]
          refine ⟨?_, ?_, ?_, ?_, ?_, ?_⟩
          · simpa [hq, businessOf, businessList] using hfifo
          · intro hst2
            exact absurd (hdisc hst2) (by rw [hp]; simp)
          · intro _; simp
          · intro hst2
            have hh := hhsk hst2
            rw [hp] at hh
            exact absurd hh (by simp)
          · simpa using hnoq
          · intro _ _
            exact hq
        | cons q rest =>
          have hst : step s Event.ack =
              { s with acked := s.acked ++ [m], pending := some q,
                       send_queue := rest, sent := s.sent ++ [q] } := by
            simp [step, pollster_callback_ack, hp, hq]
          rw [hst]
          refine ⟨?_, ?_, ?_, ?_, ?_, ?_⟩
          · rw [hq, businessList_cons] at hfifo
            simp only [businessOf] at hfifo ⊢
            rw [← hfifo]
            simp
          · intro hst2
            exact absurd (hdisc hst2) (by rw [hp]; simp)
          · intro _ hcontra
            simp only [Option.some.injEq] at hcontra
            apply hnoq
            rw [hq, ← hcontra]
            exact List.mem_cons_self q rest
          · intro hst2
            have hh := hhsk hst2
            rw [hp] at hh
            exact absurd hh (by simp)
          · intro hin
            apply hnoq
            rw [hq]
            exact List.mem_cons_of_mem q hin
          · intro _ hpend; simp at hpend
  | beginHandshake =>
    simp only [step, handle_status_disconnected]
    by_cases hst : s.status = Status.disconnected
    · rw [if_pos hst]
      have hpn := hdisc hst
      refine ⟨?_, ?_, ?_, ?_, hnoq, ?_⟩
      · rw [hpn] at hfifo
        simpa [businessOf] using hfifo
      · intro hco; simp at hco
      · intro hco; simp at hco
      · intro _; rfl
      · intro hco; simp at hco
    · rw [if_neg hst]
      exact ⟨hfifo, hdisc, hconn, hhsk, hnoq, hempty⟩
  | ackTimeout =>
    by_cases hst : s.status = Status.connected
    · cases hp : s.pending with
      | none =>
        have he : step s Event.ackTimeout = s := by
          simp [step, handle_status_connected_timeout, hst, hp]
        rw [he]
        exact ⟨hfifo, hdisc, hconn, hhsk, hnoq, hempty⟩
      | some p =>
        have he : step s Event.ackTimeout =
            { s with status := Status.disconnected, pending := Option.none,
                     send_queue := p :: s.send_queue } := by
          simp [step, handle_status_connected_timeout, hst, hp]
        rw [he]
        rw [hp] at hfifo
        refine ⟨?_, ?_, ?_, ?_, ?_, ?_⟩
        · simpa [businessList_cons, businessOf] using hfifo
        · intro _; rfl
        · intro hco; simp at hco
        · intro hco; simp at hco
        · intro hin
          rcases List.mem_cons.mp hin with hin | hin
          · have hcp := hconn hst
            rw [hp] at hcp
            exact hcp (by rw [← hin])
          · exact hnoq hin
        · intro hco; simp at hco
    · have he : step s Event.ackTimeout = s := by
        simp [step, handle_status_connected_timeout, hst]
      rw [he]
      exact ⟨hfifo, hdisc, hconn, hhsk, hnoq, hempty⟩
  | idleDisconnect =>
    simp only [step, handle_status_connected_idle]
    by_cases hc : s.status = Status.connected ∧ s.pending = Option.none
    · rw [if_pos hc]
      refine ⟨hfifo, ?_, ?_, ?_, hnoq, ?_⟩
      · intro _; exact hc.2
      · intro hco; simp at hco
      · intro hco; simp at hco
      · intro hco; simp at hco
    · rw [if_neg hc]
      exact ⟨hfifo, hdisc, hconn, hhsk, hnoq, hempty⟩
  | handshakeTimeout =>
    simp only [step, handle_status_handshaking_timeout]
    by_cases hst : s.status = Status.handshaking
    · rw [if_pos hst]
      have hph := hhsk hst
      refine ⟨?_, ?_, ?_, ?_, hnoq, ?_⟩
      · rw [hph] at hfifo
        simpa [businessOf] using hfifo
      · intro _; rfl
      · intro hco; simp at hco
      · intro hco; simp at hco
      · intro hco; simp at hco
    · rw [if_neg hst]
      exact ⟨hfifo, hdisc, hconn, hhsk, hnoq, hempty⟩

theorem run_inv (es : List Event) : Inv (run es) := by
  suffices h : ∀ (l : List Event) (s : ClientState), Inv s → Inv (l.foldl step s) by
    exact h es initial initial_inv
  intro l
  induction l with
  | nil => intro s hs; exact hs
  | cons e rest ih =>
    intro s hs
    exact ih (step s e) (step_preserves_inv s e hs)

/-- C2: after any event sequence, the acked, pending and queued
business messages in order are exactly the submissions (strict FIFO);
at most one message is pending (in flight); `queue_message_for_send`
transmits immediately exactly when the client is connected with nothing
pending and otherwise only appends to the queue; and a queued message
becomes in-flight only through the ack of the pending message, taking
the queue's head. -/
theorem resilient_client_single_inflight_fifo (es : List Event) (m : Nat) :
    ((run es).acked ++ businessOf (run es).pending ++
        businessList (run es).send_queue = (run es).enqueued) ∧
    ((businessOf (run es).pending).length ≤ 1) ∧
    ((queue_message_for_send (run es) m).sent =
      (run es).sent ++
        (if (run es).status = Status.connected ∧ (run es).pending = Option.none
         then [PendMsg.business m] else [])) ∧
    (¬ ((run es).status = Status.connected ∧
        (run es).pending = Option.none) →
      (queue_message_for_send (run es) m).send_queue =
        (run es).send_queue ++ [PendMsg.business m] ∧
      (queue_message_for_send (run es) m).pending = (run es).pending ∧
      (queue_message_for_send (run es) m).sent = (run es).sent) ∧
    (∀ e : Event,
      (step (run es) e).sent = (run es).sent ∨
      (∃ k, e = Event.enqueue k ∧
        (step (run es) e).sent = (run es).sent ++ [PendMsg.business k]) ∨
      (e = Event.beginHandshake ∧
        (step (run es) e).sent = (run es).sent ++ [PendMsg.handshake]) ∨
      (e = Event.ack ∧ ∃ q rest, (run es).send_queue = q :: rest ∧
        (step (run es) e).pending = some q ∧
        (step (run es) e).send_queue = rest ∧
        (step (run es) e).sent = (run es).sent ++ [q])) := by
  obtain ⟨hfifo, hdisc, hconn, hhsk, hnoq, hempty⟩ := run_inv es
  refine ⟨hfifo, ?_, ?_, ?_, ?_⟩
  · cases h : (run es).pending with
    | none => simp [businessOf]
    | some p => cases p <;> simp [businessOf]
  · by_cases hc : (run es).status = Status.connected ∧
        (run es).pending = Option.none
    · simp [queue_message_for_send, hc]
    · simp [queue_message_for_send, hc]
  · intro hc
    refine ⟨?_, ?_, ?_⟩ <;> simp [queue_message_for_send, hc]
  · intro e
    cases e with
    | enqueue k =>
      by_cases hc : (run es).status = Status.connected ∧
          (run es).pending = Option.none
      · exact Or.inr (Or.inl ⟨k, rfl, by simp [step, queue_message_for_send, hc]⟩)
      · exact Or.inl (by simp [step, queue_message_for_send, hc])
    | ack =>
      cases hp : (run es).pending with
      | none => exact Or.inl (by simp [step, pollster_callback_ack, hp])
      | some p =>
        cases hq : (run es).send_queue with
        | nil =>
          refine Or.inl ?_
          cases p <;> simp [step, pollster_callback_ack, hp, hq]
        | cons q rest =>
          refine Or.inr (Or.inr (Or.inr ⟨rfl, q, rest, rfl, ?_, ?_, ?_⟩)) <;>
            (cases p <;> simp [step, pollster_callback_ack, hp, hq])
    | beginHandshake =>
      by_cases hst : (run es).status = Status.disconnected
      · exact Or.inr (Or.inr (Or.inl
          ⟨rfl, by simp [step, handle_status_disconnected, hst]⟩))
      · exact Or.inl (by simp [step, handle_status_disconnected, hst])
    | ackTimeout =>
      refine Or.inl ?_
      by_cases hst : (run es).status = Status.connected
      · cases hp : (run es).pending with
        | none => simp [step, handle_status_connected_timeout, hst, hp]
        | some p => simp [step, handle_status_connected_timeout, hst, hp]
      · simp [step, handle_status_connected_timeout, hst]
    | idleDisconnect =>
      refine Or.inl ?_
      by_cases hc : (run es).status = Status.connected ∧
          (run es).pending = Option.none
      · simp [step, handle_status_connected_idle, hc]
      · simp [step, handle_status_connected_idle, hc]
    | handshakeTimeout =>
      refine Or.inl ?_
      by_cases hst : (run es).status = Status.handshaking
      · simp [step, handle_status_handshaking_timeout, hst]
      · simp [step, handle_status_handshaking_timeout, hst]

end ResilientClientM

namespace ListMatcher

/-- Modelled from the spec: the segment status constants
(`segment_status_active` and friends) come from tools/data_definitions.py,
which is not among the repository files; the spec gives
`status ∈ {active, cancelled, final, tombstone}`. -/
inductive SegmentStatus
  | active
  | cancelled
  | final
  | tombstone
deriving DecidableEq

/-- The columns of `nimbusio_node.segment` that the `list_keys` query
touches. -/
structure SegmentRow where
  key : PyStr
  unified_id : Nat
  status : SegmentStatus
  timestamp : Nat
  collection_id : Nat
  handoff_node_id : Option Nat
deriving DecidableEq

/-- The columns of `nimbusio_node.conjoined` that the query touches;
`create_timestamp` is set when the row is created (spec §3). -/
structure ConjoinedRow where
  unified_id : Nat
  create_timestamp : Nat
  complete_timestamp : Option Nat
deriving DecidableEq

/-- The WHERE clause of the `list_keys` query applied to one segment
row right-joined against the conjoined table:
`(con.create_timestamp is null or con.complete_timestamp is not null)
and seg.collection_id = %s and seg.handoff_node_id is null
and seg.key like %s and seg.key > %s`. -/
def rowVisible (cons : List ConjoinedRow) (collection_id : Nat)
    (keyPrefix marker : PyStr) (r : SegmentRow) : Bool :=
  (match cons.find? (fun c => c.unified_id = r.unified_id) with
   | Option.none => true
   | some c => c.complete_timestamp.isSome) &&
  decide (r.collection_id = collection_id) &&
  r.handoff_node_id.isNone &&
  keyPrefix.isPrefixOf r.key &&
  decide (marker < r.key)

/-- `order by seg.key asc, seg.timestamp desc` as a total preorder. -/
def rowLE (a b : SegmentRow) : Prop :=
  a.key < b.key ∨ (a.key = b.key ∧ b.timestamp ≤ a.timestamp)

instance : DecidableRel rowLE := fun a b => by
  unfold rowLE
  infer_instance

instance : IsTotal SegmentRow rowLE := ⟨by
  intro a b
  rcases lt_trichotomy a.key b.key with h | h | h
  · exact Or.inl (Or.inl h)
  · rcases Nat.le_total b.timestamp a.timestamp with h2 | h2
    · exact Or.inl (Or.inr ⟨h, h2⟩)
    · exact Or.inr (Or.inr ⟨h.symm, h2⟩)
  · exact Or.inr (Or.inl h)⟩

instance : IsTrans SegmentRow rowLE := ⟨by
  intro a b c hab hbc
  rcases hab with h | ⟨he, ht⟩
  · rcases hbc with h2 | ⟨he2, _⟩
    · exact Or.inl (h.trans h2)
    · exact Or.inl (he2 ▸ h)
  · rcases hbc with h2 | ⟨he2, ht2⟩
    · exact Or.inl (he ▸ h2)
    · exact Or.inr ⟨he.trans he2, ht2.trans ht⟩⟩

/-- The rows of the segment table passing the query's WHERE clause. -/
def visibleRows (segments : List SegmentRow) (cons : List ConjoinedRow)
    (collection_id : Nat) (keyPrefix marker : PyStr) : List SegmentRow :=
  segments.filter (rowVisible cons collection_id keyPrefix marker)

/-- `connection.fetch_all_rows(...)`: filter, order, limit. -/
def fetch_all_rows (segments : List SegmentRow) (cons : List ConjoinedRow)
    (collection_id : Nat) (keyPrefix marker : PyStr) (request_count : Nat) :
    List SegmentRow :=
  (List.insertionSort rowLE
    (visibleRows segments cons collection_id keyPrefix marker)).take
    request_count

/-- One dictionary of the returned `key_list`:
`{"key", "version_identifier", "timestamp_repr"}`. -/
structure KeyData where
  key : PyStr
  version_identifier : Nat
  timestamp_repr : PyStr
deriving DecidableEq

/-- The row loop of `list_keys`: `prev_key` tracking, skipping
active/cancelled rows without touching `prev_key`, and dropping
tombstone rows after recording their key. -/
def buildKeyList (reprTs : Nat → PyStr) :
    Option PyStr → List SegmentRow → List KeyData
  | _, [] => []
  | prev, row :: rest =>
    if prev = some row.key then buildKeyList reprTs prev rest
    else if row.status = SegmentStatus.active ∨
        row.status = SegmentStatus.cancelled then
      buildKeyList reprTs prev rest
    else if row.status = SegmentStatus.tombstone then
      buildKeyList reprTs (some row.key) rest
    else
      ⟨row.key, row.unified_id, reprTs row.timestamp⟩ ::
        buildKeyList reprTs (some row.key) rest

/-- Python's `haystack.find(needle, start)` over character lists
(`none` for -1). -/
def findFromAux (needle : PyStr) : Nat → PyStr → Option Nat
  | i, [] => if needle.isPrefixOf [] then some i else Option.none
  | i, c :: t =>
    if needle.isPrefixOf (c :: t) then some i else findFromAux needle (i + 1) t

def findFrom (hay needle : PyStr) (start : Nat) : Option Nat :=
  findFromAux needle start (hay.drop start)

/-- The result of `list_keys`: either
`{"key_data": ..., "truncated": ...}` or
`{"prefixes": ..., "truncated": ...}`. -/
inductive ListKeysResult
  | keys (key_data : List KeyData) (truncated : Bool)
  | prefixSet (prefixes : List PyStr) (truncated : Bool)
deriving DecidableEq

/-- The delimiter loop: collect `key[:delimiter_pos+1]` for every entry
whose key contains the delimiter past the prefix (a Python set, kept in
first-insertion order). -/
def buildPrefixSet (keyPrefix delimiter : PyStr) (key_list : List KeyData) :
    List PyStr :=
  key_list.foldl
    (fun acc e =>
      match findFrom e.key delimiter keyPrefix.length with
      | some pos =>
        if 0 < pos then
          (if e.key.take (pos + 1) ∈ acc then acc else acc ++ [e.key.take (pos + 1)])
        else acc
      | Option.none => acc)
    []

/-- `list_keys` from web_server/listmatcher.py.  `reprTs` models
Python's `repr` on timestamps. -/
def list_keys (reprTs : Nat → PyStr) (segments : List SegmentRow)
    (cons : List ConjoinedRow) (collection_id : Nat) (keyPrefix : PyStr)
    (max_keys : Nat) (delimiter : PyStr) (marker : PyStr) : ListKeysResult :=
  let request_count := max_keys + 1
  let result := fetch_all_rows segments cons collection_id keyPrefix marker
    request_count
  let truncated : Bool := decide (result.length = request_count)
  let key_list := buildKeyList reprTs Option.none (result.take max_keys)
  if delimiter.isEmpty then ListKeysResult.keys key_list truncated
  else ListKeysResult.prefixSet (buildPrefixSet keyPrefix delimiter key_list)
    truncated

theorem buildKeyList_length (reprTs : Nat → PyStr) (prev : Option PyStr)
    (l : List SegmentRow) :
    (buildKeyList reprTs prev l).length ≤ l.length := by
  induction l generalizing prev with
  | nil => simp [buildKeyList]
  | cons row rest ih =>
    simp only [buildKeyList]
    by_cases h1 : prev = some row.key
    · rw [if_pos h1]
      exact (ih prev).trans (Nat.le_succ _)
    · rw [if_neg h1]
      by_cases h2 : row.status = SegmentStatus.active ∨
          row.status = SegmentStatus.cancelled
      · rw [if_pos h2]
        exact (ih prev).trans (Nat.le_succ _)
      · rw [if_neg h2]
        by_cases h3 : row.status = SegmentStatus.tombstone
        · rw [if_pos h3]
          exact (ih (some row.key)).trans (Nat.le_succ _)
        · rw [if_neg h3]
          simpa using ih (some row.key)

theorem rowLE_key_le {a b : SegmentRow} (h : rowLE a b) : a.key ≤ b.key := by
  rcases h with h | ⟨h, _⟩
  · exact le_of_lt h
  · exact le_of_eq h

/-- Every entry the row loop emits stands for a `final` row of the
window whose timestamp is maximal among the same-key final/tombstone
rows of the window, and whose key differs from the incoming
`prev_key`. -/
theorem buildKeyList_mem (reprTs : Nat → PyStr) (l : List SegmentRow)
    (prev : Option PyStr) (hs : List.Sorted rowLE l)
    (hprevle : ∀ k, prev = some k → ∀ r ∈ l, k ≤ r.key) (e : KeyData)
    (he : e ∈ buildKeyList reprTs prev l) :
    ∃ r ∈ l, r.status = SegmentStatus.final ∧
      e = ⟨r.key, r.unified_id, reprTs r.timestamp⟩ ∧
      prev ≠ some r.key ∧
      ∀ r' ∈ l, r'.key = r.key →
        (r'.status = SegmentStatus.final ∨
         r'.status = SegmentStatus.tombstone) →
        r'.timestamp ≤ r.timestamp := by
  induction l generalizing prev with
  | nil => simp [buildKeyList] at he
  | cons row rest ih =>
    have hrest : List.Sorted rowLE rest := hs.of_cons
    have hrow_le : ∀ r ∈ rest, rowLE row r := fun r hr =>
      List.rel_of_sorted_cons hs r hr
    have hprevle_rest : ∀ k, prev = some k → ∀ r ∈ rest, k ≤ r.key :=
      fun k hk r hr => hprevle k hk r (List.mem_cons_of_mem _ hr)
    have hshift : ∀ k, some row.key = some k → ∀ r ∈ rest, k ≤ r.key := by
      intro k hk r hr
      cases hk
      exact rowLE_key_le (hrow_le r hr)
    simp only [buildKeyList] at he
    by_cases h1 : prev = some row.key
    · rw [if_pos h1] at he
      obtain ⟨r, hrmem, hfin, hef, hprev, hmax⟩ := ih prev hrest hprevle_rest he
      refine ⟨r, List.mem_cons_of_mem _ hrmem, hfin, hef, hprev, ?_⟩
      intro r' hr' hk hft
      rcases List.mem_cons.mp hr' with rfl | hr'
      · exfalso
        apply hprev
        rw [h1, hk]
      · exact hmax r' hr' hk hft
    · rw [if_neg h1] at he
      by_cases h2 : row.status = SegmentStatus.active ∨
          row.status = SegmentStatus.cancelled
      · rw [if_pos h2] at he
        obtain ⟨r, hrmem, hfin, hef, hprev, hmax⟩ := ih prev hrest hprevle_rest he
        refine ⟨r, List.mem_cons_of_mem _ hrmem, hfin, hef, hprev, ?_⟩
        intro r' hr' hk hft
        rcases List.mem_cons.mp hr' with rfl | hr'
        · rcases h2 with h2 | h2 <;> rcases hft with hft | hft <;>
            simp [h2] at hft
        · exact hmax r' hr' hk hft
      · rw [if_neg h2] at he
        have from_shifted :
            e ∈ buildKeyList reprTs (some row.key) rest →
            ∃ r ∈ row :: rest, r.status = SegmentStatus.final ∧
              e = ⟨r.key, r.unified_id, reprTs r.timestamp⟩ ∧
              prev ≠ some r.key ∧
              ∀ r' ∈ row :: rest, r'.key = r.key →
                (r'.status = SegmentStatus.final ∨
                 r'.status = SegmentStatus.tombstone) →
                r'.timestamp ≤ r.timestamp := by
          intro he2
          obtain ⟨r, hrmem, hfin, hef, hprev, hmax⟩ :=
            ih (some row.key) hrest hshift he2
          have hkne : row.key ≠ r.key := fun hcontra =>
            hprev (by rw [hcontra])
          refine ⟨r, List.mem_cons_of_mem _ hrmem, hfin, hef, ?_, ?_⟩
          · intro hcontra
            have h01 : r.key ≤ row.key := hprevle r.key hcontra row
              (List.mem_cons_self _ _)
            have h02 : row.key ≤ r.key := rowLE_key_le (hrow_le r hrmem)
            exact hkne (le_antisymm h02 h01)
          · intro r' hr' hk hft
            rcases List.mem_cons.mp hr' with rfl | hr'
            · exact absurd hk hkne
            · exact hmax r' hr' hk hft
        by_cases h3 : row.status = SegmentStatus.tombstone
        · rw [if_pos h3] at he
          exact from_shifted he
        · rw [if_neg h3] at he
          have hfin : row.status = SegmentStatus.final := by
            cases hst : row.status with
            | active => exact absurd (Or.inl hst) h2
            | cancelled => exact absurd (Or.inr hst) h2
            | tombstone => exact absurd hst h3
            | final => rfl
          rcases List.mem_cons.mp he with rfl | he
          · refine ⟨row, List.mem_cons_self _ _, hfin, rfl, h1, ?_⟩
            intro r' hr' hk _
            rcases List.mem_cons.mp hr' with rfl | hr'
            · exact le_refl _
            · rcases hrow_le r' hr' with hlt | ⟨_, hle⟩
              · exact absurd hlt (by rw [hk]; exact lt_irrefl _)
              · exact hle
          · exact from_shifted he

/-- The row loop emits at most one entry per distinct key. -/
theorem buildKeyList_pairwise (reprTs : Nat → PyStr) (l : List SegmentRow)
    (prev : Option PyStr) (hs : List.Sorted rowLE l)
    (hprevle : ∀ k, prev = some k → ∀ r ∈ l, k ≤ r.key) :
    List.Pairwise (fun a b => a.key ≠ b.key) (buildKeyList reprTs prev l) := by
  induction l generalizing prev with
  | nil => simp [buildKeyList]
  | cons row rest ih =>
    have hrest : List.Sorted rowLE rest := hs.of_cons
    have hrow_le : ∀ r ∈ rest, rowLE row r := fun r hr =>
      List.rel_of_sorted_cons hs r hr
    have hprevle_rest : ∀ k, prev = some k → ∀ r ∈ rest, k ≤ r.key :=
      fun k hk r hr => hprevle k hk r (List.mem_cons_of_mem _ hr)
    have hshift : ∀ k, some row.key = some k → ∀ r ∈ rest, k ≤ r.key := by
      intro k hk r hr
      cases hk
      exact rowLE_key_le (hrow_le r hr)
    simp only [buildKeyList]
    by_cases h1 : prev = some row.key
    · rw [if_pos h1]
      exact ih prev hrest hprevle_rest
    · rw [if_neg h1]
      by_cases h2 : row.status = SegmentStatus.active ∨
          row.status = SegmentStatus.cancelled
      · rw [if_pos h2]
        exact ih prev hrest hprevle_rest
      · rw [if_neg h2]
        by_cases h3 : row.status = SegmentStatus.tombstone
        · rw [if_pos h3]
          exact ih (some row.key) hrest hshift
        · rw [if_neg h3]
          refine List.Pairwise.cons ?_ (ih (some row.key) hrest hshift)
          intro e he
          obtain ⟨r, _, _, hef, hprev, _⟩ :=
            buildKeyList_mem reprTs rest (some row.key) hrest hshift e he
          rw [hef]
          intro hcontra
          simp only at hcontra
          exact hprev (congrArg some hcontra)

/-- The `key_data` list of a `list_keys` call (empty-delimiter form). -/
def listKeysData (reprTs : Nat → PyStr) (segments : List SegmentRow)
    (cons : List ConjoinedRow) (collection_id : Nat) (keyPrefix : PyStr)
    (max_keys : Nat) (marker : PyStr) : List KeyData :=
  match list_keys reprTs segments cons collection_id keyPrefix max_keys []
      marker with
  | ListKeysResult.keys kd _ => kd
  | ListKeysResult.prefixSet _ _ => []

/-- The `truncated` flag of a `list_keys` call (empty-delimiter form). -/
def listKeysTruncated (reprTs : Nat → PyStr) (segments : List SegmentRow)
    (cons : List ConjoinedRow) (collection_id : Nat) (keyPrefix : PyStr)
    (max_keys : Nat) (marker : PyStr) : Bool :=
  match list_keys reprTs segments cons collection_id keyPrefix max_keys []
      marker with
  | ListKeysResult.keys _ t => t
  | ListKeysResult.prefixSet _ t => t

theorem listKeysData_eq (reprTs : Nat → PyStr) (segments : List SegmentRow)
    (cons : List ConjoinedRow) (collection_id : Nat) (keyPrefix : PyStr)
    (max_keys : Nat) (marker : PyStr) :
    listKeysData reprTs segments cons collection_id keyPrefix max_keys marker =
      buildKeyList reprTs Option.none
        ((List.insertionSort rowLE (visibleRows segments cons collection_id
          keyPrefix marker)).take max_keys) ∧
    listKeysTruncated reprTs segments cons collection_id keyPrefix max_keys
        marker =
      decide ((List.insertionSort rowLE (visibleRows segments cons
        collection_id keyPrefix marker)).length ≥ max_keys + 1) := by
  have hlk : list_keys reprTs segments cons collection_id keyPrefix max_keys []
      marker =
      ListKeysResult.keys
        (buildKeyList reprTs Option.none
          ((List.insertionSort rowLE (visibleRows segments cons collection_id
            keyPrefix marker)).take max_keys))
        (decide (((List.insertionSort rowLE (visibleRows segments cons
          collection_id keyPrefix marker)).take (max_keys + 1)).length =
          max_keys + 1)) := by
    simp [list_keys, fetch_all_rows, List.take_take,
      Nat.min_eq_right (Nat.le_succ max_keys)]
  constructor
  · simp [listKeysData, hlk]
  · simp only [listKeysTruncated, hlk]
    rw [List.length_take, decide_eq_decide]
    omega

/-- C7: for the empty delimiter, `list_keys` returns at most one entry
per distinct key; each entry is a `final` row of the collection whose
timestamp is at least that of every same-key final-or-tombstone visible
row (so it is the most recent finalized non-tombstone row); at most
`max_keys` entries are returned, the `truncated` flag reflects whether
a `max_keys + 1`-st row was fetched, and a key whose strictly most
recent visible row is a tombstone never appears. -/
theorem list_keys_per_key_semantics (reprTs : Nat → PyStr)
    (segments : List SegmentRow) (cons : List ConjoinedRow)
    (collection_id max_keys : Nat) (keyPrefix marker : PyStr) :
    List.Pairwise (fun a b => a.key ≠ b.key)
      (listKeysData reprTs segments cons collection_id keyPrefix max_keys
        marker) ∧
    (listKeysData reprTs segments cons collection_id keyPrefix max_keys
        marker).length ≤ max_keys ∧
    listKeysTruncated reprTs segments cons collection_id keyPrefix max_keys
        marker =
      decide (max_keys + 1 ≤
        (visibleRows segments cons collection_id keyPrefix marker).length) ∧
    (∀ e ∈ listKeysData reprTs segments cons collection_id keyPrefix max_keys
        marker,
      ∃ r ∈ visibleRows segments cons collection_id keyPrefix marker,
        r.status = SegmentStatus.final ∧ e.key = r.key ∧
        e.version_identifier = r.unified_id ∧
        e.timestamp_repr = reprTs r.timestamp ∧
        ∀ r' ∈ visibleRows segments cons collection_id keyPrefix marker,
          r'.key = r.key →
          (r'.status = SegmentStatus.final ∨
           r'.status = SegmentStatus.tombstone) →
          r'.timestamp ≤ r.timestamp) ∧
    (∀ t ∈ visibleRows segments cons collection_id keyPrefix marker,
      t.status = SegmentStatus.tombstone →
      (∀ r ∈ visibleRows segments cons collection_id keyPrefix marker,
        r.key = t.key → r ≠ t → r.timestamp < t.timestamp) →
      ∀ e ∈ listKeysData reprTs segments cons collection_id keyPrefix max_keys
        marker, e.key ≠ t.key) := by
  obtain ⟨hdata, htrunc⟩ := listKeysData_eq reprTs segments cons collection_id
    keyPrefix max_keys marker
  set S := visibleRows segments cons collection_id keyPrefix marker with hS
  set sortedS := List.insertionSort rowLE S with hsortedS
  have hsorted : List.Sorted rowLE sortedS :=
    List.sorted_insertionSort rowLE S
  have hperm : sortedS.Perm S := List.perm_insertionSort rowLE S
  have hwin_sorted : List.Sorted rowLE (sortedS.take max_keys) :=
    hsorted.sublist (List.take_sublist max_keys sortedS)
  have hnone : ∀ k, (Option.none : Option PyStr) = some k →
      ∀ r ∈ sortedS.take max_keys, k ≤ r.key := by
    intro k hk
    exact absurd hk (by simp)
  have key_mem : ∀ e ∈ listKeysData reprTs segments cons collection_id
      keyPrefix max_keys marker,
      ∃ r ∈ S, r.status = SegmentStatus.final ∧ e.key = r.key ∧
        e.version_identifier = r.unified_id ∧
        e.timestamp_repr = reprTs r.timestamp ∧
        ∀ r' ∈ S, r'.key = r.key →
          (r'.status = SegmentStatus.final ∨
           r'.status = SegmentStatus.tombstone) →
          r'.timestamp ≤ r.timestamp := by
    intro e he
    rw [hdata] at he
    obtain ⟨r, hrmem, hfin, hef, _, hmax⟩ :=
      buildKeyList_mem reprTs (sortedS.take max_keys) Option.none
        hwin_sorted hnone e he
    refine ⟨r, hperm.mem_iff.mp (List.mem_of_mem_take hrmem), hfin,
      by rw [hef], by rw [hef], by rw [hef], ?_⟩
    intro r' hr' hk hft
    have hr'sorted : r' ∈ sortedS := hperm.mem_iff.mpr hr'
    rw [← List.take_append_drop max_keys sortedS] at hr'sorted
    rcases List.mem_append.mp hr'sorted with hr'win | hr'drop
    · exact hmax r' hr'win hk hft
    · rcases hsorted.rel_of_mem_take_of_mem_drop hrmem hr'drop with
        hlt | ⟨_, hle⟩
      · exact absurd hlt (by rw [hk]; exact lt_irrefl _)
      · exact hle
  refine ⟨?_, ?_, ?_, key_mem, ?_⟩
  · rw [hdata]
    exact buildKeyList_pairwise reprTs _ Option.none hwin_sorted hnone
  · rw [hdata]
    exact (buildKeyList_length reprTs Option.none _).trans
      (by simpa using List.length_take_le max_keys sortedS)
  · rw [htrunc, decide_eq_decide, hperm.length_eq]
  · intro t htmem htomb hdom e he
    obtain ⟨r, hrmem, hfin, hek, _, _, hmax⟩ := key_mem e he
    intro hcontra
    have hkey : r.key = t.key := by rw [← hek, hcontra]
    have hne : r ≠ t := by
      intro hre
      rw [hre, htomb] at hfin
      exact absurd hfin (by simp)
    have h1 : r.timestamp < t.timestamp := hdom r hrmem hkey hne
    have h2 : t.timestamp ≤ r.timestamp :=
      hmax t htmem hkey.symm (Or.inr htomb)
    omega

end ListMatcher

namespace AntiEntropy

/-- Modelled from the spec: the one-letter codes stored in the
`status` column of `nimbusio_node.segment`.  tools/data_definitions.py,
which defines `segment_status_active` and friends, is not among the
repository's files; the spec enumerates
`status ∈ {active, cancelled, final, tombstone}` and the consistency
query compares the column against the literal 'A'. -/
def statusChar : ListMatcher.SegmentStatus → Char
  | ListMatcher.SegmentStatus.active => 'A'
  | ListMatcher.SegmentStatus.cancelled => 'C'
  | ListMatcher.SegmentStatus.final => 'F'
  | ListMatcher.SegmentStatus.tombstone => 'T'

/-- The columns of `nimbusio_node.segment` touched by
`_handle_consistency_check`; `file_hash` is NULL on tombstone rows. -/
structure AESegmentRow where
  key : PyStr
  timestamp : Nat
  file_hash : Option PyStr
  status : ListMatcher.SegmentStatus
  handoff_node_id : Option Nat
  collection_id : Nat
deriving DecidableEq

/-- `str(file_hash)`: Python renders a NULL hash as "None". -/
def strFileHash : Option PyStr → PyStr
  | Option.none => "None".data
  | some h => h

/-- `order by key, timestamp` (both ascending). -/
def aeRowLE (a b : AESegmentRow) : Prop :=
  a.key < b.key ∨ (a.key = b.key ∧ a.timestamp ≤ b.timestamp)

instance : DecidableRel aeRowLE := fun a b => by
  unfold aeRowLE
  infer_instance

/-- The rows produced by the handler's query:
`where collection_id = %s and status = 'A' and handoff_node_id is null
order by key, timestamp`. -/
def consistency_check_rows (table : List AESegmentRow)
    (collection_id : Nat) : List AESegmentRow :=
  List.insertionSort aeRowLE
    (table.filter (fun r =>
      decide (r.collection_id = collection_id) &&
      (statusChar r.status == 'A') &&
      r.handoff_node_id.isNone))

/-- `_handle_consistency_check` reduced to the fields the reply gets:
`count` and `encoded-md5-digest` — the md5 over the concatenation, per
row, of `key`, `repr(timestamp)` and `str(file_hash)`. -/
def handle_consistency_check (md5 : PyStr → PyStr)
    (b64encode : PyStr → PyStr) (reprTs : Nat → PyStr)
    (table : List AESegmentRow) (collection_id : Nat) : Nat × PyStr :=
  let rows := consistency_check_rows table collection_id
  (rows.length,
   b64encode (md5 (rows.foldl
     (fun acc r => acc ++ r.key ++ reprTs r.timestamp ++
       strFileHash r.file_hash) [])))

/-- The rows C1 says are hashed, following the claim's words: status in
{active, final}, with tombstone rows contributing a tombstone marker
(so they are iterated too), and `handoff_node_id` NULL. -/
def claimC1_rows (table : List AESegmentRow) (collection_id : Nat) :
    List AESegmentRow :=
  List.insertionSort aeRowLE
    (table.filter (fun r =>
      decide (r.collection_id = collection_id) &&
      (decide (r.status = ListMatcher.SegmentStatus.active) ||
       decide (r.status = ListMatcher.SegmentStatus.final) ||
       decide (r.status = ListMatcher.SegmentStatus.tombstone)) &&
      r.handoff_node_id.isNone))

/-- C1 (code bug): the handler's query keeps only rows with
`status = 'A'` (active).  For a collection holding one `final` row and
one tombstone row — both of which the claim (and the module's own
docstring) says are hashed — the handler replies `count = 0` and the
digest of the empty concatenation, while the claim demands two hashed
rows. -/
theorem consistency_check_hashes_only_active_rows :
    (handle_consistency_check id id (fun _ => "1.2".data)
      [⟨"k1".data, 1, some "h1".data, ListMatcher.SegmentStatus.final,
        Option.none, 1⟩,
       ⟨"k1".data, 2, Option.none, ListMatcher.SegmentStatus.tombstone,
        Option.none, 1⟩] 1).1 = 0 ∧
    (handle_consistency_check id id (fun _ => "1.2".data)
      [⟨"k1".data, 1, some "h1".data, ListMatcher.SegmentStatus.final,
        Option.none, 1⟩,
       ⟨"k1".data, 2, Option.none, ListMatcher.SegmentStatus.tombstone,
        Option.none, 1⟩] 1).2 = [] ∧
    (claimC1_rows
      [⟨"k1".data, 1, some "h1".data, ListMatcher.SegmentStatus.final,
        Option.none, 1⟩,
       ⟨"k1".data, 2, Option.none, ListMatcher.SegmentStatus.tombstone,
        Option.none, 1⟩] 1).length = 2 := by
  refine ⟨?_, ?_, ?_⟩ <;> decide

/-- A node's collated reply inside a request state: `_error_reply` or
the `(count, encoded-md5-digest)` pair. -/
inductive ReplyVal
  | errorReply
  | okReply (count : Nat) (digest : PyStr)
deriving DecidableEq

/-- `_request_state_tuple`.  `client_tag` is set exactly when the audit
was begun by an explicit `anti-entropy-audit-request`. -/
structure RequestState where
  client_tag : Option String
  timestamp : Nat
  timeout : Nat
  retry_count : Nat
  replies : List (String × ReplyVal)
  row_id : Nat
deriving DecidableEq

/-- `state["active-requests"]` keys: `(collection_id, timestamp)`. -/
abbrev AEKey := Nat × Nat

/-- `retry_entry_tuple`. -/
structure RetryEntry where
  retry_time : Nat
  collection_id : Nat
  row_id : Nat
  retry_count : Nat
deriving DecidableEq

/-- The audit-result database call the handler makes, if any. -/
inductive DbAction
  | noAction
  | successfulAudit (row_id : Nat)
  | auditError (row_id : Nat)
  | waitForRetry (row_id : Nat)
deriving DecidableEq

/-- The `anti-entropy-audit-reply` message, with the mismatched node
sets (`mistmatch-nodes-<i>` keys in the source) as a list of groups. -/
structure AuditReply where
  client_tag : String
  collection_id : Nat
  result : String
  error_reply_nodes : List String
  mismatch_node_sets : List (List String)
deriving DecidableEq

/-- Everything `_handle_consistency_check_reply` changes or emits. -/
structure AEOutcome where
  active_requests : List (AEKey × RequestState)
  retry_list : List RetryEntry
  sent_reply : Option AuditReply
  db_action : DbAction
deriving DecidableEq

/-- The fields of a `consistency-check-reply` the handler reads
(`timestamp` is the parsed `timestamp-repr`). -/
structure CCReplyMessage where
  collection_id : Nat
  timestamp : Nat
  node_name : String
  result : String
  count : Nat
  encoded_md5_digest : PyStr
deriving DecidableEq

def lookupAE (l : List (AEKey × RequestState)) (k : AEKey) :
    Option RequestState :=
  (l.find? (fun p => p.1 = k)).map (fun p => p.2)

def removeAE (l : List (AEKey × RequestState)) (k : AEKey) :
    List (AEKey × RequestState) :=
  l.filter (fun p => ¬ (p.1 = k))

def updateAE (l : List (AEKey × RequestState)) (k : AEKey)
    (v : RequestState) : List (AEKey × RequestState) :=
  l.map (fun p => if p.1 = k then (k, v) else p)

/-- Add one successful digest to `md5_digest_dict` (groups keyed by
digest, nodes appended in arrival order). -/
def addToGroups (groups : List (PyStr × List String)) (d : PyStr)
    (node : String) : List (PyStr × List String) :=
  if (groups.find? (fun g => g.1 = d)).isSome then
    groups.map (fun g => if g.1 = d then (g.1, g.2 ++ [node]) else g)
  else groups ++ [(d, [node])]

/-- Build `md5_digest_dict` from the collated replies: the error-node
list (the `_error_reply` key) and the digest groups. -/
def groupReplies (replies : List (String × ReplyVal)) :
    List String × List (PyStr × List String) :=
  replies.foldl
    (fun acc p =>
      match p.2 with
      | ReplyVal.errorReply => (acc.1 ++ [p.1], acc.2)
      | ReplyVal.okReply _ d => (acc.1, addToGroups acc.2 d p.1))
    ([], [])

/-- `_handle_anti_entropy_audit_request`: start an audit row and store
a request state whose `client_tag` is the requester's and whose
`retry_count` is already `max_retry_count` (so it is never retried). -/
def handle_anti_entropy_audit_request (now request_timeout row_id
    max_retry_count : Nat) (active : List (AEKey × RequestState))
    (client_tag : String) (collection_id timestamp : Nat) :
    List (AEKey × RequestState) :=
  ((collection_id, timestamp),
   ⟨some client_tag, timestamp, now + request_timeout, max_retry_count, [],
    row_id⟩) :: active

/-- `_handle_consistency_check_reply`.  An unknown state key or a
duplicate node reply is dropped; an incomplete reply set only updates
the stored replies; a complete set removes the state, groups the
digests and follows the source's decision tree (the branches for an
explicit audit — `reply is not None` — reply synchronously and never
touch the retry list). -/
def handle_consistency_check_reply (max_retry_count retry_time_val
    num_clients : Nat) (active : List (AEKey × RequestState))
    (retry_list : List RetryEntry) (message : CCReplyMessage) : AEOutcome :=
  let state_key : AEKey := (message.collection_id, message.timestamp)
  match lookupAE active state_key with
  | Option.none => ⟨active, retry_list, Option.none, DbAction.noAction⟩
  | some request_state =>
    if (request_state.replies.find?
        (fun p => p.1 = message.node_name)).isSome then
      ⟨active, retry_list, Option.none, DbAction.noAction⟩
    else
      let reply_value :=
        if message.result ≠ "success" then ReplyVal.errorReply
        else ReplyVal.okReply message.count message.encoded_md5_digest
      let replies2 := request_state.replies ++ [(message.node_name, reply_value)]
      if replies2.length < num_clients then
        ⟨updateAE active state_key { request_state with replies := replies2 },
         retry_list, Option.none, DbAction.noAction⟩
      else
        let active2 := removeAE active state_key
        let error_reply_list := (groupReplies replies2).1
        let groups := (groupReplies replies2).2
        let reply0 : Option AuditReply :=
          match request_state.client_tag with
          | some tag =>
            some ⟨tag, message.collection_id, "", error_reply_list,
              if 1 < groups.length then groups.map (fun g => g.2) else []⟩
          | Option.none => Option.none
        if error_reply_list.length = 0 ∧ groups.length = 1 then
          match reply0 with
          | some rep =>
            ⟨active2, retry_list, some { rep with result := "success" },
             DbAction.successfulAudit request_state.row_id⟩
          | Option.none =>
            ⟨active2, retry_list, Option.none,
             DbAction.successfulAudit request_state.row_id⟩
        else if 0 < error_reply_list.length ∧ groups.length = 1 then
          match reply0 with
          | some rep =>
            ⟨active2, retry_list, some { rep with result := "error" },
             DbAction.auditError request_state.row_id⟩
          | Option.none =>
            if max_retry_count ≤ request_state.retry_count then
              ⟨active2, retry_list, Option.none,
               DbAction.auditError request_state.row_id⟩
            else
              ⟨active2,
               retry_list ++ [⟨retry_time_val, message.collection_id,
                 request_state.row_id, request_state.retry_count⟩],
               Option.none, DbAction.waitForRetry request_state.row_id⟩
        else
          match reply0 with
          | some rep =>
            ⟨active2, retry_list, some { rep with result := "audit-error" },
             DbAction.auditError request_state.row_id⟩
          | Option.none =>
            if max_retry_count ≤ request_state.retry_count then
              ⟨active2, retry_list, Option.none,
               DbAction.auditError request_state.row_id⟩
            else
              ⟨active2,
               retry_list ++ [⟨retry_time_val, message.collection_id,
                 request_state.row_id, request_state.retry_count⟩],
               Option.none, DbAction.waitForRetry request_state.row_id⟩

/-- The decision table C6 states for the reply to an explicit audit,
read literally: success iff no errors and one distinct digest; error
iff there are error replies and the remaining digests are all equal;
audit-error iff two or more distinct digests. -/
def claimC6ResultTable (error_nodes : List String)
    (groups : List (PyStr × List String)) (result : String) : Prop :=
  (result = "success" ↔ (error_nodes = [] ∧ groups.length = 1)) ∧
  (result = "error" ↔
    (error_nodes ≠ [] ∧ ∀ g1 ∈ groups, ∀ g2 ∈ groups, g1.1 = g2.1)) ∧
  (result = "audit-error" ↔ 2 ≤ groups.length)

/-- C6 (amended): an audit begun by an explicit
`anti-entropy-audit-request` stores `client_tag` and
`retry_count = max_retry_count`; when the last node reply arrives the
handler leaves the retry list untouched and always sends an
`anti-entropy-audit-reply` to that client tag whose result is
"success" when there are no errors and one distinct digest, "error"
when there are errors and exactly one distinct digest, and
"audit-error" otherwise (zero or at least two distinct digests), with
the mismatching node sets attached when digests disagree. -/
theorem explicit_audit_replies_and_never_retries
    (max_retry_count retry_time_val num_clients : Nat)
    (active : List (AEKey × RequestState)) (retry_list : List RetryEntry)
    (message : CCReplyMessage) (rs : RequestState) (tag : String)
    (hlk : lookupAE active (message.collection_id, message.timestamp) =
      some rs)
    (htag : rs.client_tag = some tag)
    (hnew : (rs.replies.find?
      (fun p => p.1 = message.node_name)).isSome = false)
    (hcomplete : num_clients ≤ rs.replies.length + 1) :
    (∀ now request_timeout row_id act2 ct cid ts,
      lookupAE (handle_anti_entropy_audit_request now request_timeout row_id
          max_retry_count act2 ct cid ts) (cid, ts) =
        some ⟨some ct, ts, now + request_timeout, max_retry_count, [],
          row_id⟩) ∧
    (handle_consistency_check_reply max_retry_count retry_time_val
      num_clients active retry_list message).retry_list = retry_list ∧
    (∃ rep,
      (handle_consistency_check_reply max_retry_count retry_time_val
        num_clients active retry_list message).sent_reply = some rep ∧
      rep.client_tag = tag ∧
      rep.error_reply_nodes = (groupReplies (rs.replies ++
        [(message.node_name,
          if message.result ≠ "success" then ReplyVal.errorReply
          else ReplyVal.okReply message.count
            message.encoded_md5_digest)])).1 ∧
      rep.result =
        (if (groupReplies (rs.replies ++ [(message.node_name,
              if message.result ≠ "success" then ReplyVal.errorReply
              else ReplyVal.okReply message.count
                message.encoded_md5_digest)])).1.length = 0 ∧
            (groupReplies (rs.replies ++ [(message.node_name,
              if message.result ≠ "success" then ReplyVal.errorReply
              else ReplyVal.okReply message.count
                message.encoded_md5_digest)])).2.length = 1
         then "success"
         else if 0 < (groupReplies (rs.replies ++ [(message.node_name,
              if message.result ≠ "success" then ReplyVal.errorReply
              else ReplyVal.okReply message.count
                message.encoded_md5_digest)])).1.length ∧
            (groupReplies (rs.replies ++ [(message.node_name,
              if message.result ≠ "success" then ReplyVal.errorReply
              else ReplyVal.okReply message.count
                message.encoded_md5_digest)])).2.length = 1
         then "error" else "audit-error") ∧
      (1 < (groupReplies (rs.replies ++ [(message.node_name,
          if message.result ≠ "success" then ReplyVal.errorReply
          else ReplyVal.okReply message.count
            message.encoded_md5_digest)])).2.length →
        rep.mismatch_node_sets = (groupReplies (rs.replies ++
          [(message.node_name,
            if message.result ≠ "success" then ReplyVal.errorReply
            else ReplyVal.okReply message.count
              message.encoded_md5_digest)])).2.map (fun g => g.2))) := by
  refine ⟨?_, ?_⟩
  · intro now request_timeout row_id act2 ct cid ts
    simp [handle_anti_entropy_audit_request, lookupAE, List.find?]
  set rv := if message.result ≠ "success" then ReplyVal.errorReply
    else ReplyVal.okReply message.count message.encoded_md5_digest with hrv
  set replies2 := rs.replies ++ [(message.node_name, rv)] with hreplies2
  set errs := (groupReplies replies2).1 with herrs
  set grps := (groupReplies replies2).2 with hgrps
  have hfull : ¬ (replies2.length < num_clients) := by
    rw [hreplies2]
    simp only [List.length_append, List.length_cons, List.length_nil]
    omega
  have hout : handle_consistency_check_reply max_retry_count retry_time_val
      num_clients active retry_list message =
      (if errs.length = 0 ∧ grps.length = 1 then
        ⟨removeAE active (message.collection_id, message.timestamp),
         retry_list,
         some ⟨tag, message.collection_id, "success", errs,
           if 1 < grps.length then grps.map (fun g => g.2) else []⟩,
         DbAction.successfulAudit rs.row_id⟩
       else if 0 < errs.length ∧ grps.length = 1 then
        ⟨removeAE active (message.collection_id, message.timestamp),
         retry_list,
         some ⟨tag, message.collection_id, "error", errs,
           if 1 < grps.length then grps.map (fun g => g.2) else []⟩,
         DbAction.auditError rs.row_id⟩
       else
        ⟨removeAE active (message.collection_id, message.timestamp),
         retry_list,
         some ⟨tag, message.collection_id, "audit-error", errs,
           if 1 < grps.length then grps.map (fun g => g.2) else []⟩,
         DbAction.auditError rs.row_id⟩) := by
    simp only [handle_consistency_check_reply, hlk, hnew, Bool.false_eq_true,
      if_false, ← hrv, ← hreplies2, hfull, ← herrs, ← hgrps, htag]
  rw [hout]
  by_cases h1 : errs.length = 0 ∧ grps.length = 1
  · rw [if_pos h1]
    refine ⟨rfl, ⟨_, rfl, rfl, rfl, ?_, ?_⟩⟩
    · rw [if_pos h1]
    · intro hg
      rw [if_pos hg]
  · rw [if_neg h1]
    by_cases h2 : 0 < errs.length ∧ grps.length = 1
    · rw [if_pos h2]
      refine ⟨rfl, ⟨_, rfl, rfl, rfl, ?_, ?_⟩⟩
      · rw [if_neg h1, if_pos h2]
      · intro hg
        rw [if_pos hg]
    · rw [if_neg h2]
      refine ⟨rfl, ⟨_, rfl, rfl, rfl, ?_, ?_⟩⟩
      · rw [if_neg h1, if_neg h2]
      · intro hg
        rw [if_pos hg]

/-- Witness for C6 (amended): two nodes report different digests for
an explicitly requested audit; the retry list stays empty. -/
theorem explicit_audit_replies_and_never_retries_witness :
    (handle_consistency_check_reply 2 100 2
      [((5, 9), ⟨some "t", 9, 0, 2, [("n1", ReplyVal.okReply 1 "d1".data)],
        77⟩)] [] ⟨5, 9, "n2", "success", 1, "d2".data⟩).retry_list = [] :=
  (explicit_audit_replies_and_never_retries 2 100 2
    [((5, 9), ⟨some "t", 9, 0, 2, [("n1", ReplyVal.okReply 1 "d1".data)],
      77⟩)] [] ⟨5, 9, "n2", "success", 1, "d2".data⟩
    ⟨some "t", 9, 0, 2, [("n1", ReplyVal.okReply 1 "d1".data)], 77⟩ "t"
    (by decide) (by decide) (by decide) (by decide)).2.1

/-- Counterexample to C6 as stated: when every node replies with an
error, the handler sends result "audit-error" although there are zero
distinct digests (not two or more), and the claim's decision table —
which maps "errors with all remaining digests equal" to "error" — does
not hold for this reply. -/
theorem explicit_audit_all_error_counterexample :
    (handle_consistency_check_reply 2 100 2
      [((5, 9), ⟨some "t", 9, 0, 2, [("n1", ReplyVal.errorReply)], 77⟩)] []
      ⟨5, 9, "n2", "error", 0, []⟩).sent_reply =
      some ⟨"t", 5, "audit-error", ["n1", "n2"], []⟩ ∧
    (groupReplies [("n1", ReplyVal.errorReply),
      ("n2", ReplyVal.errorReply)]).2 = [] ∧
    ¬ claimC6ResultTable ["n1", "n2"]
      (groupReplies [("n1", ReplyVal.errorReply),
        ("n2", ReplyVal.errorReply)]).2 "audit-error" := by
  refine ⟨by decide, by decide, ?_⟩
  intro h
  have h3 := h.2.2.mp rfl
  simp [groupReplies, addToGroups] at h3

end AntiEntropy

namespace Forwarder

/-- The segment row driving a handoff forwarder. -/
structure SegmentRow where
  unified_id : Nat
  segment_num : Nat
  collection_id : Nat
  key : String
  conjoined_part : Nat
  timestamp : Nat
  file_size : Nat
  file_adler32 : Int
  file_hash : PyStr
  source_node_id : Nat
  handoff_node_id : Option Nat
deriving DecidableEq

/-- The fields of a `retrieve-key-reply` the coroutine reads. -/
structure RReply where
  message_type : String
  result : String
  completed : Bool
  segment_size : Nat
  zfec_padding_size : Nat
  segment_adler32 : Int
  segment_md5_digest : String
deriving DecidableEq

/-- A reply from the writer client (an archive ack). -/
structure AckReply where
  message_type : String
  result : String
deriving DecidableEq

/-- What each `yield` of the coroutine receives: `(reply, data)` from
the reader client or a bare reply from the writer client. -/
inductive Inbound
  | fromReader (r : RReply) (data : PyStr)
  | fromWriter (a : AckReply)
deriving DecidableEq

/-- An archive message built by the coroutine (`sequence_num` and the
whole-file fields are absent on the verbs that do not carry them). -/
structure ArchiveMsg where
  message_type : String
  collection_id : Nat
  key : String
  unified_id : Nat
  conjoined_part : Nat
  timestamp_repr : PyStr
  segment_num : Nat
  segment_size : Nat
  zfec_padding_size : Nat
  segment_adler32 : Int
  segment_md5_digest : String
  sequence_num : Option Nat
  file_size : Option Nat
  file_adler32 : Option Int
  file_hash : Option PyStr
  source_node_name : String
  handoff_node_name : Option String
deriving DecidableEq

/-- A message the coroutine queues for send. -/
inductive OutMsg
  | retrieveKeyStart (segment_unified_id segment_num : Nat)
  | retrieveKeyNext (segment_unified_id segment_num : Nat)
  | archive (msg : ArchiveMsg) (data : PyStr)
deriving DecidableEq

/-- The `archive-key-entire` message (single-sequence segment). -/
def entireMsg (b64encode : PyStr → PyStr) (reprTs : Nat → PyStr)
    (node_name_dict : Nat → String) (row : SegmentRow) (r : RReply) :
    ArchiveMsg :=
  { message_type := "archive-key-entire",
    collection_id := row.collection_id,
    key := row.key,
    unified_id := row.unified_id,
    conjoined_part := row.conjoined_part,
    timestamp_repr := reprTs row.timestamp,
    segment_num := row.segment_num,
    segment_size := r.segment_size,
    zfec_padding_size := r.zfec_padding_size,
    segment_adler32 := r.segment_adler32,
    segment_md5_digest := r.segment_md5_digest,
    sequence_num := Option.none,
    file_size := some row.file_size,
    file_adler32 := some row.file_adler32,
    file_hash := some (b64encode row.file_hash),
    source_node_name := node_name_dict row.source_node_id,
    handoff_node_name := Option.none }

/-- The `archive-key-start` message (`sequence-num` is 1). -/
def startMsg (reprTs : Nat → PyStr) (node_name_dict : Nat → String)
    (row : SegmentRow) (r : RReply) : ArchiveMsg :=
  { message_type := "archive-key-start",
    collection_id := row.collection_id,
    key := row.key,
    unified_id := row.unified_id,
    conjoined_part := row.conjoined_part,
    timestamp_repr := reprTs row.timestamp,
    segment_num := row.segment_num,
    segment_size := r.segment_size,
    zfec_padding_size := r.zfec_padding_size,
    segment_adler32 := r.segment_adler32,
    segment_md5_digest := r.segment_md5_digest,
    sequence_num := some 1,
    file_size := Option.none,
    file_adler32 := Option.none,
    file_hash := Option.none,
    source_node_name := node_name_dict row.source_node_id,
    handoff_node_name := Option.none }

/-- An `archive-key-next` message for one intermediate sequence. -/
def nextMsg (reprTs : Nat → PyStr) (node_name_dict : Nat → String)
    (row : SegmentRow) (sequence : Nat) (r : RReply) : ArchiveMsg :=
  { startMsg reprTs node_name_dict row r with
    message_type := "archive-key-next",
    sequence_num := some sequence }

/-- The `archive-key-final` message for the last sequence. -/
def finalMsg (b64encode : PyStr → PyStr) (reprTs : Nat → PyStr)
    (node_name_dict : Nat → String) (row : SegmentRow) (sequence : Nat)
    (r : RReply) : ArchiveMsg :=
  { entireMsg b64encode reprTs node_name_dict row r with
    message_type := "archive-key-final",
    sequence_num := some sequence }

/-- The `while not completed` loop of `forwarder_coroutine`: each round
sends `retrieve-key-next`, receives the reader reply (asserting type
and success), sends `archive-key-next` or `archive-key-final` with the
incremented sequence number, and receives the writer ack (asserting
success).  A reply stream that breaks the protocol is an assertion
failure (`Except.error`). -/
def forwarderLoop (b64encode : PyStr → PyStr) (reprTs : Nat → PyStr)
    (node_name_dict : Nat → String) (row : SegmentRow) (sequence : Nat) :
    List Inbound → Except String (List OutMsg)
  | Inbound.fromReader r d :: rest =>
    if r.message_type ≠ "retrieve-key-reply" then
      Except.error "assert: retrieve-key-reply"
    else if r.result ≠ "success" then Except.error "assert: success"
    else
      match rest with
      | Inbound.fromWriter a :: rest2 =>
        if a.result ≠ "success" then Except.error "assert: success"
        else if r.completed then
          Except.ok [OutMsg.retrieveKeyNext row.unified_id row.segment_num,
            OutMsg.archive (finalMsg b64encode reprTs node_name_dict row
              sequence r) d]
        else
          (forwarderLoop b64encode reprTs node_name_dict row (sequence + 1)
            rest2).map
            (fun outs =>
              OutMsg.retrieveKeyNext row.unified_id row.segment_num ::
              OutMsg.archive (nextMsg reprTs node_name_dict row sequence r)
                d :: outs)
      | _ => Except.error "protocol: expected a writer reply"
  | _ => Except.error "protocol: expected a reader reply"

/-- `forwarder_coroutine` as a function of the replies its yields
receive: it queues `retrieve-key-start`, archives the first sequence
with `archive-key-entire` (when the first reply is completed) or
`archive-key-start`, runs the loop, and finally yields
`(segment_row, source_node_names)`.  On the entire path the writer
reply is consumed without assertions, as in the source. -/
def forwarder (b64encode : PyStr → PyStr) (reprTs : Nat → PyStr)
    (node_name_dict : Nat → String) (row : SegmentRow)
    (source_node_names : List String) :
    List Inbound → Except String (List OutMsg × (SegmentRow × List String))
  | Inbound.fromReader r d :: rest =>
    if r.message_type ≠ "retrieve-key-reply" then
      Except.error "assert: retrieve-key-reply"
    else if r.result ≠ "success" then Except.error "assert: success"
    else if r.completed then
      match rest with
      | _ :: _ =>
        Except.ok ([OutMsg.retrieveKeyStart row.unified_id row.segment_num,
          OutMsg.archive (entireMsg b64encode reprTs node_name_dict row r) d],
          (row, source_node_names))
      | [] => Except.error "protocol: conversation ended early"
    else
      match rest with
      | Inbound.fromWriter a :: rest2 =>
        if a.message_type ≠ "archive-key-start-reply" then
          Except.error "assert: archive-key-start-reply"
        else if a.result ≠ "success" then Except.error "assert: success"
        else
          (forwarderLoop b64encode reprTs node_name_dict row 2 rest2).map
            (fun outs =>
              (OutMsg.retrieveKeyStart row.unified_id row.segment_num ::
               OutMsg.archive (startMsg reprTs node_name_dict row r) d ::
               outs, (row, source_node_names)))
      | _ => Except.error "protocol: expected a writer reply"
  | _ => Except.error "protocol: expected a reader reply"

/-- The per-chunk data a retrieve conversation delivers. -/
structure ChunkInfo where
  segment_size : Nat
  zfec_padding_size : Nat
  segment_adler32 : Int
  segment_md5_digest : String
  data : PyStr
deriving DecidableEq

/-- A successful `retrieve-key-reply` for one chunk. -/
def mkRReply (c : ChunkInfo) (completed : Bool) : RReply :=
  ⟨"retrieve-key-reply", "success", completed, c.segment_size,
   c.zfec_padding_size, c.segment_adler32, c.segment_md5_digest⟩

/-- A successful writer ack inside the loop (its type is not checked). -/
def successAck : AckReply := ⟨"archive-key-next-reply", "success"⟩

/-- The successful ack to `archive-key-start`. -/
def startAck : AckReply := ⟨"archive-key-start-reply", "success"⟩

/-- The loop section of an all-success conversation: one reader reply
and one writer ack per remaining chunk, `completed` on the last. -/
def convLoop : List ChunkInfo → List Inbound
  | [] => []
  | [c] => [Inbound.fromReader (mkRReply c true) c.data,
            Inbound.fromWriter successAck]
  | c :: rest =>
    Inbound.fromReader (mkRReply c false) c.data ::
    Inbound.fromWriter successAck :: convLoop rest

/-- An all-success retrieve conversation delivering `cs`: every reply
reports success and exactly the last one is completed. -/
def conversation : List ChunkInfo → List Inbound
  | [] => []
  | [c] => [Inbound.fromReader (mkRReply c true) c.data,
            Inbound.fromWriter successAck]
  | c :: rest =>
    Inbound.fromReader (mkRReply c false) c.data ::
    Inbound.fromWriter startAck :: convLoop rest

/-- The messages C8 says the loop sends, following the claim's words:
alternating `retrieve-key-next` / `archive-key-next` pairs with the
sequence number incremented by one each round, ending with
`archive-key-final` on the completed reply. -/
def specLoopOutputs (b64encode : PyStr → PyStr) (reprTs : Nat → PyStr)
    (node_name_dict : Nat → String) (row : SegmentRow) (sequence : Nat) :
    List ChunkInfo → List OutMsg
  | [] => []
  | [c] => [OutMsg.retrieveKeyNext row.unified_id row.segment_num,
    OutMsg.archive (finalMsg b64encode reprTs node_name_dict row sequence
      (mkRReply c true)) c.data]
  | c :: rest =>
    OutMsg.retrieveKeyNext row.unified_id row.segment_num ::
    OutMsg.archive (nextMsg reprTs node_name_dict row sequence
      (mkRReply c false)) c.data ::
    specLoopOutputs b64encode reprTs node_name_dict row (sequence + 1) rest

/-- The messages C8 says the whole forwarder sends: one
`archive-key-entire` when the first reply is completed, otherwise
`archive-key-start` with sequence-num 1 followed by the loop. -/
def specOutputs (b64encode : PyStr → PyStr) (reprTs : Nat → PyStr)
    (node_name_dict : Nat → String) (row : SegmentRow) :
    List ChunkInfo → List OutMsg
  | [] => []
  | [c] => [OutMsg.retrieveKeyStart row.unified_id row.segment_num,
    OutMsg.archive (entireMsg b64encode reprTs node_name_dict row
      (mkRReply c true)) c.data]
  | c :: rest =>
    OutMsg.retrieveKeyStart row.unified_id row.segment_num ::
    OutMsg.archive (startMsg reprTs node_name_dict row (mkRReply c false))
      c.data ::
    specLoopOutputs b64encode reprTs node_name_dict row 2 rest


theorem forwarderLoop_conversation (b64encode : PyStr → PyStr)
    (reprTs : Nat → PyStr) (node_name_dict : Nat → String)
    (row : SegmentRow) :
    ∀ (cs : List ChunkInfo) (sequence : Nat), cs ≠ [] →
      forwarderLoop b64encode reprTs node_name_dict row sequence
          (convLoop cs) =
        Except.ok (specLoopOutputs b64encode reprTs node_name_dict row
          sequence cs) := by
  intro cs
  induction cs with
  | nil => intro seq h; exact absurd rfl h
  | cons c rest ih =>
    intro seq _
    cases rest with
    | nil =>
      simp [convLoop, forwarderLoop, specLoopOutputs, mkRReply, successAck]
    | cons c2 rest2 =>
      have ihr := ih (seq + 1) (by simp)
      simp [convLoop, forwarderLoop, specLoopOutputs, mkRReply, successAck,
        ihr, Except.map]

theorem specLoopOutputs_archive_fields (b64encode : PyStr → PyStr)
    (reprTs : Nat → PyStr) (node_name_dict : Nat → String)
    (row : SegmentRow) :
    ∀ (cs : List ChunkInfo) (sequence : Nat) (m : ArchiveMsg) (d : PyStr),
      OutMsg.archive m d ∈
        specLoopOutputs b64encode reprTs node_name_dict row sequence cs →
      m.source_node_name = node_name_dict row.source_node_id ∧
      m.handoff_node_name = Option.none := by
  intro cs
  induction cs with
  | nil => intro seq m d h; simp [specLoopOutputs] at h
  | cons c rest ih =>
    intro seq m d h
    cases rest with
    | nil =>
      simp only [specLoopOutputs, List.mem_cons, List.mem_singleton,
        List.not_mem_nil, or_false] at h
      rcases h with h | h
      · exact absurd h (by simp)
      · have hm : m = finalMsg b64encode reprTs node_name_dict row seq
            (mkRReply c true) := by
          injection h with h1 h2
        rw [hm]
        exact ⟨rfl, rfl⟩
    | cons c2 rest2 =>
      simp only [specLoopOutputs, List.mem_cons] at h
      rcases h with h | h | h
      · exact absurd h (by simp)
      · have hm : m = nextMsg reprTs node_name_dict row seq
            (mkRReply c false) := by
          injection h with h1 h2
        rw [hm]
        exact ⟨rfl, rfl⟩
      · exact ih (seq + 1) m d h

/-- C8: for every all-success conversation delivering chunks `cs`, the
forwarder produces exactly the claim's message sequence — a single
`archive-key-entire` when the first retrieve reply is completed,
otherwise `archive-key-start` with sequence-num 1, alternating
`retrieve-key-next`/`archive-key-next` with the sequence number
incremented each round, and `archive-key-final` on the completed
reply — every archive message names the original source node from
`node_name_dict[segment_row.source_node_id]` with
`handoff-node-name = None`, and the final yield is
`(segment_row, source_node_names)`. -/
theorem forwarder_conversation_spec (b64encode : PyStr → PyStr)
    (reprTs : Nat → PyStr) (node_name_dict : Nat → String)
    (row : SegmentRow) (source_node_names : List String)
    (cs : List ChunkInfo) (hne : cs ≠ []) :
    forwarder b64encode reprTs node_name_dict row source_node_names
        (conversation cs) =
      Except.ok (specOutputs b64encode reprTs node_name_dict row cs,
        (row, source_node_names)) ∧
    (∀ m d, OutMsg.archive m d ∈
        specOutputs b64encode reprTs node_name_dict row cs →
      m.source_node_name = node_name_dict row.source_node_id ∧
      m.handoff_node_name = Option.none) ∧
    (∀ c, cs = [c] →
      specOutputs b64encode reprTs node_name_dict row cs =
        [OutMsg.retrieveKeyStart row.unified_id row.segment_num,
         OutMsg.archive (entireMsg b64encode reprTs node_name_dict row
           (mkRReply c true)) c.data]) := by
  cases cs with
  | nil => exact absurd rfl hne
  | cons c rest =>
    cases rest with
    | nil =>
      refine ⟨?_, ?_, ?_⟩
      · simp [conversation, forwarder, specOutputs, mkRReply]
      · intro m d h
        simp only [specOutputs, List.mem_cons, List.mem_singleton,
          List.not_mem_nil, or_false] at h
        rcases h with h | h
        · exact absurd h (by simp)
        · have hm : m = entireMsg b64encode reprTs node_name_dict row
              (mkRReply c true) := by
            injection h with h1 h2
          rw [hm]
          exact ⟨rfl, rfl⟩
      · intro c2 hc
        injection hc with h1 h2
        subst h1
        simp [specOutputs]
    | cons c2 rest2 =>
      have hloop := forwarderLoop_conversation b64encode reprTs
        node_name_dict row (c2 :: rest2) 2 (by simp)
      refine ⟨?_, ?_, ?_⟩
      · simp [conversation, forwarder, specOutputs, mkRReply, startAck,
          hloop, Except.map]
      · intro m d h
        simp only [specOutputs, List.mem_cons] at h
        rcases h with h | h | h
        · exact absurd h (by simp)
        · have hm : m = startMsg reprTs node_name_dict row
              (mkRReply c false) := by
            injection h with h1 h2
          rw [hm]
          exact ⟨rfl, rfl⟩
        · exact specLoopOutputs_archive_fields b64encode reprTs
            node_name_dict row (c2 :: rest2) 2 m d h
      · intro c3 hc
        injection hc with h1 h2
        exact absurd h2 (by simp)

/-- Witness for C8: a concrete two-sequence handoff conversation. -/
theorem forwarder_conversation_spec_witness :
    forwarder id (fun _ => "5".data) (fun _ => "node-a")
        ⟨11, 3, 2, "k", 0, 5, 100, 7, "fh".data, 4, some 9⟩ ["n1", "n2"]
        (conversation [⟨10, 0, 1, "m1", "d1".data⟩,
          ⟨12, 0, 2, "m2", "d2".data⟩]) =
      Except.ok (specOutputs id (fun _ => "5".data) (fun _ => "node-a")
        ⟨11, 3, 2, "k", 0, 5, 100, 7, "fh".data, 4, some 9⟩
        [⟨10, 0, 1, "m1", "d1".data⟩, ⟨12, 0, 2, "m2", "d2".data⟩],
        (⟨11, 3, 2, "k", 0, 5, 100, 7, "fh".data, 4, some 9⟩,
         ["n1", "n2"])) :=
  (forwarder_conversation_spec id (fun _ => "5".data) (fun _ => "node-a")
    ⟨11, 3, 2, "k", 0, 5, 100, 7, "fh".data, 4, some 9⟩ ["n1", "n2"]
    [⟨10, 0, 1, "m1", "d1".data⟩, ⟨12, 0, 2, "m2", "d2".data⟩]
    (by decide)).1

end Forwarder
